import Mathlib

/-! FoodOrderingFrontEnd: handlers of the storefront screens.

A shallow embedding of the event handlers of `HomeScreen.jsx`, `CartScreen.jsx`,
`OrderSummaryScreen.jsx`, `CartItem.jsx` and `AdminAddItemScreen.jsx`.  A handler is a function from the values it
reads (props, component state, the value of `useCart()`) to the list of effects it
performs, in program order.  The point where an `async` handler suspends on `await` splits
it into the part before and the part after the awaited promise settles.
-/

namespace FoodOrdering

/-! ## Values -/

/-- A JavaScript value as stored in a field of a Firestore document. -/
inductive JsVal where
  | undefined
  | null
  | bool (b : Bool)
  | num (r : Rat)
  | str (s : String)
  deriving DecidableEq

/-- A JavaScript object: its own properties in insertion order. -/
abbrev JsObj := List (String × JsVal)

/-- Property read `o.k`; a missing property reads as `undefined`. -/
def getProp (o : JsObj) (k : String) : JsVal :=
  match o.lookup k with
  | some v => v
  | none => JsVal.undefined

/-- Property write in an object literal: an existing key keeps its position and takes the
new value, a new key is appended. -/
def setProp : JsObj → String → JsVal → JsObj
  | [], k, v => [(k, v)]
  | (k0, v0) :: rest, k, v =>
    if k0 = k then (k0, v) :: rest else (k0, v0) :: setProp rest k v

/-- Object spread `{ ...base, ...src }` onto an object literal built so far. -/
def spread (base src : JsObj) : JsObj :=
  src.foldl (fun o kv => setProp o kv.1 kv.2) base

/-- One piece of a template literal: literal text or an interpolated value. -/
inductive TplPart where
  | lit (s : String)
  | val (v : JsVal)
  deriving DecidableEq

/-- A string argument, kept as the parts of the template literal that builds it. -/
abbrev Template := List TplPart

/-- A plain string literal as a message. -/
def text (s : String) : Template := [TplPart.lit s]

/-- White space and line terminators removed by `String.prototype.trim`. -/
def isJsWhitespace (c : Char) : Bool :=
  let n := c.toNat
  n = 0x09 || n = 0x0A || n = 0x0B || n = 0x0C || n = 0x0D || n = 0x20 || n = 0xA0 ||
  n = 0x1680 || (0x2000 ≤ n && n ≤ 0x200A) || n = 0x2028 || n = 0x2029 || n = 0x202F ||
  n = 0x205F || n = 0x3000 || n = 0xFEFF

/-- `String.prototype.trim` on the list of characters. -/
def trimChars (cs : List Char) : List Char :=
  ((cs.dropWhile isJsWhitespace).reverse.dropWhile isJsWhitespace).reverse

/-- `s.trim()`. -/
def jsTrim (s : String) : String := String.mk (trimChars s.data)

/-- `!s.trim()`: the trimmed string is empty. -/
def isBlank (s : String) : Bool := (trimChars s.data).isEmpty

/-! ## Cart lines, orders, effects -/

/-- A line of `cartItems`, as read by `CartItem.jsx` and `OrderSummaryScreen.jsx`
(`item.id`, `item.name`, `item.description`, `item.price`, `item.imageUrl`,
`item.quantity`). -/
structure CartLine where
  id : JsVal
  name : JsVal
  description : JsVal
  price : JsVal
  imageUrl : JsVal
  quantity : Int
  deriving DecidableEq

/-- The `customerInfo` state of `OrderSummaryScreen`. -/
structure CustomerInfo where
  name : String
  phone : String
  address : String
  deriving DecidableEq

/-- A Firestore sentinel field value. -/
inductive FieldValue where
  | serverTimestamp
  deriving DecidableEq

/-- The `orderData` object literal of `handlePlaceOrder`. -/
structure OrderData where
  customerInfo : CustomerInfo
  items : List CartLine
  totalAmount : Rat
  totalItems : Int
  orderDate : FieldValue
  status : String
  deriving DecidableEq

/-- The calls a handler makes on its collaborators: state setters, the cart context,
Firestore, navigation and the console. -/
inductive Call where
  | setLoading (b : Bool)
  | setMenuItems (items : List JsObj)
  | setRefreshing (b : Bool)
  | addDoc (collection : String) (data : OrderData)
  | addToCart (item : JsObj)
  | updateQuantity (id : JsVal) (quantity : Int)
  | removeFromCart (id : JsVal)
  | clearCart
  | navigate (screen : String)
  | consoleError (label : String)
  deriving DecidableEq

/-- A button of an alert: its `onPress` runs only when the user presses it. -/
structure AlertButton where
  label : String
  onPress : List Call
  deriving DecidableEq

/-- What a handler does, step by step. -/
inductive Effect where
  | call (c : Call)
  | alert (title : String) (message : Template) (buttons : List AlertButton)
  deriving DecidableEq

/-- The value of `useCart()` as the screens use it.  `CartContext` is imported from
`src/context/CartContext`, which is not among the sources, so the handlers take its
operations as a parameter. -/
structure CartOps where
  addToCart : JsObj → List CartLine → List CartLine
  updateQuantity : JsVal → Int → List CartLine → List CartLine
  removeFromCart : JsVal → List CartLine → List CartLine
  clearCart : List CartLine → List CartLine
  getTotalPrice : List CartLine → Rat
  getTotalItems : List CartLine → Int

/-- How the promise returned by a Firestore call settles. -/
inductive Settled (α : Type) where
  | resolved (value : α)
  | rejected (error : String)
  deriving DecidableEq

/-- Does the effect call `addDoc`? -/
def Effect.isAddDoc : Effect → Bool
  | Effect.call (Call.addDoc _ _) => true
  | _ => false

/-- Does the effect call `setLoading`? -/
def Effect.isSetLoading : Effect → Bool
  | Effect.call (Call.setLoading _) => true
  | _ => false

/-- Does the call change the cart (`addToCart`, `updateQuantity`, `removeFromCart`,
`clearCart`)? -/
def Call.isCartMutation : Call → Bool
  | Call.addToCart _ => true
  | Call.updateQuantity _ _ => true
  | Call.removeFromCart _ => true
  | Call.clearCart => true
  | _ => false

/-- Does the effect itself change the cart?  The `onPress` of an alert button is not run by
the handler that shows the alert. -/
def Effect.isCartMutation : Effect → Bool
  | Effect.call c => c.isCartMutation
  | Effect.alert _ _ _ => false

/-- Does the effect call `clearCart`? -/
def Effect.isClearCart : Effect → Bool
  | Effect.call Call.clearCart => true
  | _ => false

/-- Does the effect navigate to the given screen? -/
def Effect.isNavigateTo (screen : String) : Effect → Bool
  | Effect.call (Call.navigate s) => s = screen
  | _ => false

/-! ## `OrderSummaryScreen.jsx` -/

namespace OrderSummaryScreen

/-- The `orderData` object built inside the `try` of `handlePlaceOrder`. -/
def orderData (ctx : CartOps) (cartItems : List CartLine) (customerInfo : CustomerInfo) :
    OrderData where
  customerInfo := customerInfo
  items := cartItems
  totalAmount := ctx.getTotalPrice cartItems
  totalItems := ctx.getTotalItems cartItems
  orderDate := FieldValue.serverTimestamp
  status := "pending"

/-- Where `handlePlaceOrder` stands when it first gives up control. -/
inductive Started where
  | returned (effects : List Effect)
  | awaiting (effects : List Effect)
  deriving DecidableEq

/-- The part of `handlePlaceOrder` up to `await addDoc(...)`: the two guards, then
`setLoading(true)` and the `addDoc` call. -/
def handlePlaceOrderStart (ctx : CartOps) (cartItems : List CartLine)
    (customerInfo : CustomerInfo) : Started :=
  if isBlank customerInfo.name || isBlank customerInfo.phone || isBlank customerInfo.address then
    Started.returned
      [Effect.alert "Missing Information" (text "Please fill in all customer details.") []]
  else if cartItems.length = 0 then
    Started.returned
      [Effect.alert "Empty Cart" (text "No items in cart to place order.") []]
  else
    Started.awaiting
      [Effect.call (Call.setLoading true),
       Effect.call (Call.addDoc "orders" (orderData ctx cartItems customerInfo))]

/-- The part of `handlePlaceOrder` after `addDoc` settles: the success alert or the `catch`
block, then the `finally` block. -/
def handlePlaceOrderResume : Settled String → List Effect
  | Settled.resolved docId =>
    [Effect.alert "Order Placed Successfully!"
       [TplPart.lit "Your order ID is: ", TplPart.val (JsVal.str docId),
        TplPart.lit "\n\nThank you for your order. We\x27ll prepare it shortly!"]
       [AlertButton.mk "OK" [Call.clearCart, Call.navigate "Main"]],
     Effect.call (Call.setLoading false)]
  | Settled.rejected _ =>
    [Effect.call (Call.consoleError "Error placing order:"),
     Effect.alert "Error" (text "Failed to place order. Please try again.") [],
     Effect.call (Call.setLoading false)]

/-- The whole of `handlePlaceOrder`, given how `addDoc` settles if it is called. -/
def handlePlaceOrder (ctx : CartOps) (cartItems : List CartLine)
    (customerInfo : CustomerInfo) (sink : Settled String) : List Effect :=
  match handlePlaceOrderStart ctx cartItems customerInfo with
  | Started.returned effects => effects
  | Started.awaiting effects => effects ++ handlePlaceOrderResume sink

end OrderSummaryScreen

/-! ## `CartScreen.jsx` -/

namespace CartScreen

/-- The handler `handleCheckout`. -/
def handleCheckout (cartItems : List CartLine) : List Effect :=
  if cartItems.length = 0 then
    [Effect.alert "Empty Cart" (text "Please add items to your cart before checkout.") []]
  else
    [Effect.call (Call.navigate "OrderSummary")]

end CartScreen

/-! ## `CartItem.jsx` -/

namespace CartItem

/-- The handler `handleIncrement` of the cart line `item`. -/
def handleIncrement (item : CartLine) : List Effect :=
  [Effect.call (Call.updateQuantity item.id (item.quantity + 1))]

/-- The handler `handleDecrement` of the cart line `item`. -/
def handleDecrement (item : CartLine) : List Effect :=
  if item.quantity > 1 then
    [Effect.call (Call.updateQuantity item.id (item.quantity - 1))]
  else
    [Effect.call (Call.removeFromCart item.id)]

/-- The handler `handleRemove` of the cart line `item`. -/
def handleRemove (item : CartLine) : List Effect :=
  [Effect.call (Call.removeFromCart item.id)]

end CartItem

/-! ## `HomeScreen.jsx` -/

namespace HomeScreen

/-- A document of a Firestore snapshot: `doc.id` and `doc.data()`. -/
structure Doc where
  id : String
  data : JsObj
  deriving DecidableEq

/-- The object literal `{ id: doc.id, ...doc.data() }`. -/
def itemOfDoc (doc : Doc) : JsObj :=
  spread [("id", JsVal.str doc.id)] doc.data

/-- The success callback passed to `onSnapshot`. -/
def onSnapshotNext (docs : List Doc) : List Effect :=
  [Effect.call (Call.setMenuItems (docs.map itemOfDoc)),
   Effect.call (Call.setLoading false)]

/-- The error callback passed to `onSnapshot`. -/
def onSnapshotError : List Effect :=
  [Effect.call (Call.consoleError "Error fetching menu items:"),
   Effect.alert "Error" (text "Failed to fetch menu items. Please try again.") [],
   Effect.call (Call.setLoading false)]

/-- The part of `fetchMenuItems` up to `await getDocs(...)`. -/
def fetchMenuItemsStart : List Effect :=
  [Effect.call (Call.setLoading true)]

/-- The part of `fetchMenuItems` after `getDocs` settles. -/
def fetchMenuItemsResume : Settled (List Doc) → List Effect
  | Settled.resolved docs =>
    [Effect.call (Call.setMenuItems (docs.map itemOfDoc)),
     Effect.call (Call.setLoading false)]
  | Settled.rejected _ =>
    [Effect.call (Call.consoleError "Error fetching menu items:"),
     Effect.alert "Error" (text "Failed to fetch menu items. Please try again.") [],
     Effect.call (Call.setLoading false)]

/-- The whole of `fetchMenuItems`, given how `getDocs` settles. -/
def fetchMenuItems (source : Settled (List Doc)) : List Effect :=
  fetchMenuItemsStart ++ fetchMenuItemsResume source

/-- The handler `handleAddToCart`. -/
def handleAddToCart (item : JsObj) : List Effect :=
  [Effect.call (Call.addToCart item),
   Effect.alert "Success" [TplPart.val (getProp item "name"), TplPart.lit " added to cart!"] []]

end HomeScreen

/-! ## Running effects on the state of the app -/

/-- The screen whose handler is running; it decides which `loading` a `setLoading` sets. -/
inductive Screen where
  | home
  | cart
  | orderSummary
  deriving DecidableEq

/-- The state the handlers read and write: the cart held by the cart context, the state of
`HomeScreen`, the state of the mounted instance of `OrderSummaryScreen` (`customerInfo`,
`orderLoading`), the current route, and the `addDoc` calls awaited by the handlers of
that instance which Firestore has not yet settled. -/
structure App where
  cartItems : List CartLine
  menuItems : List JsObj
  homeLoading : Bool
  refreshing : Bool
  customerInfo : CustomerInfo
  orderLoading : Bool
  route : String
  outstanding : List (String × OrderData)
  deriving DecidableEq

/-- The state when the app starts: `useState([])`, `useState(true)`, `useState(false)` in
`HomeScreen`, empty customer details and `useState(false)` in `OrderSummaryScreen`. -/
def App.initial : App where
  cartItems := []
  menuItems := []
  homeLoading := true
  refreshing := false
  customerInfo := ⟨"", "", ""⟩
  orderLoading := false
  route := "Main"
  outstanding := []

/-- One call, run on the state. -/
def runCall (ctx : CartOps) (scr : Screen) (c : Call) (w : App) : App :=
  match c with
  | Call.setLoading b =>
    match scr with
    | Screen.home => { w with homeLoading := b }
    | Screen.orderSummary => { w with orderLoading := b }
    | Screen.cart => w
  | Call.setMenuItems items => { w with menuItems := items }
  | Call.setRefreshing b => { w with refreshing := b }
  | Call.addDoc coll data => { w with outstanding := w.outstanding ++ [(coll, data)] }
  | Call.addToCart item => { w with cartItems := ctx.addToCart item w.cartItems }
  | Call.updateQuantity id q => { w with cartItems := ctx.updateQuantity id q w.cartItems }
  | Call.removeFromCart id => { w with cartItems := ctx.removeFromCart id w.cartItems }
  | Call.clearCart => { w with cartItems := ctx.clearCart w.cartItems }
  | Call.navigate s => { w with route := s }
  | Call.consoleError _ => w

/-- A list of calls, run in order. -/
def runCalls (ctx : CartOps) (scr : Screen) (cs : List Call) (w : App) : App :=
  cs.foldl (fun w c => runCall ctx scr c w) w

/-- One effect, run on the state.  Showing an alert changes nothing; the `onPress` of its
buttons runs on a later press. -/
def runEffect (ctx : CartOps) (scr : Screen) (e : Effect) (w : App) : App :=
  match e with
  | Effect.call c => runCall ctx scr c w
  | Effect.alert _ _ _ => w

/-- A list of effects, run in order. -/
def runEffects (ctx : CartOps) (scr : Screen) (es : List Effect) (w : App) : App :=
  es.foldl (fun w e => runEffect ctx scr e w) w

/-- The buttons of the alerts a handler has shown. -/
def alertButtons : List Effect → List AlertButton
  | [] => []
  | Effect.alert _ _ buttons :: rest => buttons ++ alertButtons rest
  | Effect.call _ :: rest => alertButtons rest

namespace OrderSummaryScreen

/-- The handler `handlePlaceOrder` invoked on the state, up to its first suspension: the
cart and the customer details are read from the state. -/
def invokePlaceOrder (ctx : CartOps) (w : App) : App :=
  match handlePlaceOrderStart ctx w.cartItems w.customerInfo with
  | Started.returned effects => runEffects ctx Screen.orderSummary effects w
  | Started.awaiting effects => runEffects ctx Screen.orderSummary effects w

/-- A press on the place-order `TouchableOpacity` (`onPress={handlePlaceOrder}`,
`disabled={loading}`): a disabled touchable does not call `onPress`. -/
def pressPlaceOrder (ctx : CartOps) (w : App) : App :=
  if w.orderLoading then w else invokePlaceOrder ctx w

/-- Firestore settles the oldest outstanding `addDoc`; the suspended `handlePlaceOrder`
resumes. -/
def settleAddDoc (ctx : CartOps) (sink : Settled String) (w : App) : App :=
  match w.outstanding with
  | [] => w
  | _ :: rest =>
    runEffects ctx Screen.orderSummary (handlePlaceOrderResume sink)
      { w with outstanding := rest }

/-- The app with the life cycle of `OrderSummaryScreen`.  `loading` and `customerInfo` are
`useState` of one mounted instance of the screen, so `app.orderLoading`,
`app.customerInfo` and `app.outstanding` belong to the instance on screen, if there is
one; `orphaned` holds the unsettled `addDoc` calls whose `handlePlaceOrder` belongs to
an instance that has been unmounted. -/
structure Nav where
  app : App
  mounted : Bool
  orphaned : List (String × OrderData)
  deriving DecidableEq

/-- An instance of `OrderSummaryScreen` is on screen with the state held in `w`. -/
def Nav.start (w : App) : Nav where
  app := w
  mounted := true
  orphaned := []

/-- Every `addDoc` that Firestore has received and not yet settled, oldest instance first. -/
def Nav.pending (n : Nav) : List (String × OrderData) :=
  n.orphaned ++ n.app.outstanding

/-- A new instance of the screen is mounted: `useState` gives empty customer details and
`loading = false`. -/
def mount (w : App) : App :=
  { w with customerInfo := ⟨"", "", ""⟩, orderLoading := false }

/-- The instance on screen is unmounted (the back button of the header, or
`navigate('Main')`): its state is gone, and the `addDoc` calls its handlers await stay
with Firestore. -/
def unmount (n : Nav) : Nav where
  app := { n.app with route := "Main", outstanding := [] }
  mounted := false
  orphaned := n.orphaned ++ n.app.outstanding

/-- What can happen around `OrderSummaryScreen`: a press on the place-order button;
Firestore settling the oldest `addDoc` awaited by the instance on screen, or the oldest
one awaited by an unmounted instance; an edit of the customer details; any change of the
cart by the cart context; leaving the screen; a press on `Proceed to Checkout` of
`CartScreen`. -/
inductive Event where
  | pressPlaceOrder
  | settle (sink : Settled String)
  | settleOrphaned (sink : Settled String)
  | editCustomerInfo (info : CustomerInfo)
  | cartChanged (cartItems : List CartLine)
  | leave
  | pressCheckout
  deriving DecidableEq

/-- One event, run on the state.  The place-order button and the text inputs exist only
while an instance is mounted.  When an `addDoc` of an unmounted instance settles, its
handler resumes: the alert is shown, and `setLoading(false)` sets the state of the
unmounted instance, not that of the instance on screen.  `Proceed to Checkout` is on
`CartScreen`, so it can be pressed only while no instance is mounted; it runs
`handleCheckout`, and if that navigates to `OrderSummary` a new instance is mounted. -/
def step (ctx : CartOps) (n : Nav) : Event → Nav
  | Event.pressPlaceOrder =>
    if n.mounted then { n with app := pressPlaceOrder ctx n.app } else n
  | Event.settle sink =>
    if n.mounted then { n with app := settleAddDoc ctx sink n.app } else n
  | Event.settleOrphaned _ =>
    match n.orphaned with
    | [] => n
    | _ :: rest => { n with orphaned := rest }
  | Event.editCustomerInfo info =>
    if n.mounted then { n with app := { n.app with customerInfo := info } } else n
  | Event.cartChanged cartItems => { n with app := { n.app with cartItems := cartItems } }
  | Event.leave => if n.mounted then unmount n else n
  | Event.pressCheckout =>
    if n.mounted then n
    else if (CartScreen.handleCheckout n.app.cartItems).any
        (Effect.isNavigateTo "OrderSummary") then
      { n with
        app := mount
          (runEffects ctx Screen.cart (CartScreen.handleCheckout n.app.cartItems) n.app)
        mounted := true }
    else
      { n with
        app := runEffects ctx Screen.cart (CartScreen.handleCheckout n.app.cartItems) n.app }

/-- A sequence of events, run in order. -/
def run (ctx : CartOps) (n : Nav) (events : List Event) : Nav :=
  events.foldl (step ctx) n

end OrderSummaryScreen

/-- A press on a button of an alert shown by `OrderSummaryScreen`: its `onPress` runs. -/
def pressAlertButton (ctx : CartOps) (b : AlertButton) (w : App) : App :=
  runCalls ctx Screen.orderSummary b.onPress w

/-! ## Actions on the cart -/

namespace Session

/-- What the customer can do to the cart: press `Add to Cart` on a menu item, or press the
plus or minus button of the `CartItem` rendered for the line at a position of `cartItems`. -/
inductive Action where
  | add (item : JsObj)
  | increment (index : Nat)
  | decrement (index : Nat)
  deriving DecidableEq

/-- One action, run on the state: the handler of the pressed button runs with the menu item
or the cart line it was rendered for; there is no button for a position past the end. -/
def step (ctx : CartOps) (w : App) : Action → App
  | Action.add item => runEffects ctx Screen.home (HomeScreen.handleAddToCart item) w
  | Action.increment index =>
    match w.cartItems[index]? with
    | some line => runEffects ctx Screen.cart (CartItem.handleIncrement line) w
    | none => w
  | Action.decrement index =>
    match w.cartItems[index]? with
    | some line => runEffects ctx Screen.cart (CartItem.handleDecrement line) w
    | none => w

/-- A sequence of actions, run in order. -/
def run (ctx : CartOps) (w : App) (actions : List Action) : App :=
  actions.foldl (step ctx) w

end Session

/-! ## The cart context -/

namespace CartContext

/-- Modelled from the spec: `src/context/CartContext` is not among the sources.  `addItem`
of section 4.2: an unavailable item is rejected and the cart is unchanged; if a line for
the id exists its quantity grows by 1; else a new line with quantity 1, holding the copied
id, name, description, price and image, is appended at the end. -/
def addToCart (item : JsObj) (cart : List CartLine) : List CartLine :=
  if getProp item "available" = JsVal.bool true then
    if cart.any (fun l => l.id = getProp item "id") then
      cart.map (fun l =>
        if l.id = getProp item "id" then { l with quantity := l.quantity + 1 } else l)
    else
      cart ++ [{ id := getProp item "id", name := getProp item "name",
                 description := getProp item "description", price := getProp item "price",
                 imageUrl := getProp item "imageUrl", quantity := 1 }]
  else cart

/-- Modelled from the spec: `src/context/CartContext` is not among the sources.
`setQuantity` of section 4.2: a quantity of at least 1 updates the line, 0 removes it, a
negative one is rejected; an absent id changes nothing. -/
def updateQuantity (id : JsVal) (qty : Int) (cart : List CartLine) : List CartLine :=
  if 1 ≤ qty then
    cart.map (fun l => if l.id = id then { l with quantity := qty } else l)
  else if qty = 0 then
    cart.filter (fun l => l.id ≠ id)
  else cart

/-- Modelled from the spec: `src/context/CartContext` is not among the sources.
`removeItem` of section 4.2: removes the line if present. -/
def removeFromCart (id : JsVal) (cart : List CartLine) : List CartLine :=
  cart.filter (fun l => l.id ≠ id)

/-- Modelled from the spec: `src/context/CartContext` is not among the sources.  `clear`
of section 4.2: empties the cart. -/
def clearCart (_cart : List CartLine) : List CartLine := []

/-- Modelled from the spec: `src/context/CartContext` is not among the sources.  The unit
price of a line, which the spec types as a decimal; a price that is not a number is outside
the spec and counts as 0. -/
def unitPrice (l : CartLine) : Rat :=
  match l.price with
  | JsVal.num r => r
  | _ => 0

/-- Modelled from the spec: `src/context/CartContext` is not among the sources.
`totalAmount` of section 3: the sum of unit price times quantity over the lines. -/
def getTotalPrice (cart : List CartLine) : Rat :=
  (cart.map (fun l => unitPrice l * (l.quantity : Rat))).sum

/-- Modelled from the spec: `src/context/CartContext` is not among the sources.
`totalItemCount` of section 3: the sum of the quantities over the lines. -/
def getTotalItems (cart : List CartLine) : Int :=
  (cart.map (fun l => l.quantity)).sum

/-- Modelled from the spec: `src/context/CartContext` is not among the sources.  The value
of `useCart()`, built from the operations above. -/
def useCart : CartOps where
  addToCart := addToCart
  updateQuantity := updateQuantity
  removeFromCart := removeFromCart
  clearCart := clearCart
  getTotalPrice := getTotalPrice
  getTotalItems := getTotalItems

end CartContext

/-! ## Sample values -/

/-- A catalog item as `AdminAddItemScreen` writes it and `HomeScreen` mirrors it. -/
def sampleItem : JsObj :=
  [("id", JsVal.str "m1"), ("name", JsVal.str "Margherita"),
   ("description", JsVal.str "Tomato and mozzarella"), ("price", JsVal.num 10),
   ("category", JsVal.str "Pizza"), ("imageUrl", JsVal.str "https://img/m1"),
   ("available", JsVal.bool true)]

/-- The cart line of `sampleItem`, with quantity 2. -/
def sampleLine : CartLine where
  id := JsVal.str "m1"
  name := JsVal.str "Margherita"
  description := JsVal.str "Tomato and mozzarella"
  price := JsVal.num 10
  imageUrl := JsVal.str "https://img/m1"
  quantity := 2

/-- Customer details that pass the guard of `handlePlaceOrder`. -/
def sampleCustomer : CustomerInfo := ⟨"Ann", "555 0100", "1 Main St"⟩

/-- A state with `sampleLine` in the cart and `sampleCustomer` entered. -/
def sampleApp : App :=
  { App.initial with cartItems := [sampleLine], customerInfo := sampleCustomer,
                     route := "OrderSummary" }

/-- The catalog item `sampleItem` with its `available` flag set to `false`. -/
def unavailableItem : JsObj := setProp sampleItem "available" (JsVal.bool false)

/-- The customer presses the place-order button, leaves the screen while the `addDoc` is
outstanding, comes back through `Proceed to Checkout`, enters the details again and
presses the button again. -/
def reentryEvents : List OrderSummaryScreen.Event :=
  [OrderSummaryScreen.Event.pressPlaceOrder, OrderSummaryScreen.Event.leave,
   OrderSummaryScreen.Event.pressCheckout,
   OrderSummaryScreen.Event.editCustomerInfo sampleCustomer,
   OrderSummaryScreen.Event.pressPlaceOrder]

/-! ## Catalog deliveries -/

namespace HomeScreen

/-- A successful delivery of the catalog: a snapshot passed to the success callback of
`onSnapshot`, or the result of the `getDocs` awaited by `fetchMenuItems`. -/
inductive Delivery where
  | snapshot (docs : List Doc)
  | fetched (docs : List Doc)
  deriving DecidableEq

/-- The documents a delivery carries. -/
def Delivery.docs : Delivery → List Doc
  | Delivery.snapshot docs => docs
  | Delivery.fetched docs => docs

/-- One delivery arrives: the success callback runs, or the suspended `fetchMenuItems`
resumes with the resolved documents. -/
def deliver (ctx : CartOps) (w : App) : Delivery → App
  | Delivery.snapshot docs => runEffects ctx Screen.home (onSnapshotNext docs) w
  | Delivery.fetched docs =>
    runEffects ctx Screen.home (fetchMenuItemsResume (Settled.resolved docs)) w

/-- Deliveries, run in arrival order. -/
def deliverAll (ctx : CartOps) (w : App) (deliveries : List Delivery) : App :=
  deliveries.foldl (deliver ctx) w

end HomeScreen

/-! ## `AdminAddItemScreen.jsx` -/

/-- A JavaScript number: `NaN`, the two infinities, or a finite value. -/
inductive JsNum where
  | nan
  | posInf
  | negInf
  | finite (r : Rat)
  deriving DecidableEq

/-- The built-in `isNaN(x)` on a number. -/
def JsNum.isNaN : JsNum → Bool
  | JsNum.nan => true
  | _ => false

/-- The comparison `x <= 0`. -/
def JsNum.leZero : JsNum → Bool
  | JsNum.nan => false
  | JsNum.posInf => false
  | JsNum.negInf => true
  | JsNum.finite r => decide (r ≤ 0)

/-- The comparison `x > 0`. -/
def JsNum.gtZero : JsNum → Bool
  | JsNum.nan => false
  | JsNum.posInf => true
  | JsNum.negInf => false
  | JsNum.finite r => decide (0 < r)

namespace AdminAddItemScreen

/-- The `formData` state. -/
structure FormData where
  name : String
  description : String
  price : String
  category : String
  imageUrl : String
  deriving DecidableEq

/-- The `menuItem` object literal of `handleAddItem`; `createdAt` is the `new Date()` read
from the clock, in milliseconds. -/
structure MenuItemData where
  name : String
  description : String
  price : JsNum
  category : String
  imageUrl : String
  createdAt : Int
  available : Bool
  deriving DecidableEq

/-- The calls the handlers of this screen make. -/
inductive Call where
  | setLoading (b : Bool)
  | setFormData (formData : FormData)
  | setImagePreview (url : Option String)
  | addDoc (collection : String) (data : MenuItemData)
  | goBack
  | consoleError (label : String)
  deriving DecidableEq

/-- A button of an alert of this screen. -/
structure AlertButton where
  label : String
  onPress : List Call
  deriving DecidableEq

/-- What a handler of this screen does, step by step. -/
inductive Effect where
  | call (c : Call)
  | alert (title : String) (message : Template) (buttons : List AlertButton)
  deriving DecidableEq

/-- Does the effect call `addDoc`? -/
def Effect.isAddDoc : Effect → Bool
  | Effect.call (Call.addDoc _ _) => true
  | _ => false

/-- Does the effect call `setLoading`? -/
def Effect.isSetLoading : Effect → Bool
  | Effect.call (Call.setLoading _) => true
  | _ => false

/-- The function `validateForm`: its return value and the alert it shows.  The built-in
`parseFloat` is a parameter. -/
def validateForm (parseFloat : String → JsNum) (formData : FormData) : Bool × List Effect :=
  if isBlank formData.name then
    (false, [Effect.alert "Error" (text "Please enter item name") []])
  else if isBlank formData.description then
    (false, [Effect.alert "Error" (text "Please enter item description") []])
  else if formData.price = "" || (parseFloat formData.price).isNaN ||
      (parseFloat formData.price).leZero then
    (false, [Effect.alert "Error" (text "Please enter a valid price") []])
  else if isBlank formData.imageUrl then
    (false, [Effect.alert "Error" (text "Please enter image URL") []])
  else
    (true, [])

/-- The `menuItem` object built inside the `try` of `handleAddItem`. -/
def menuItem (parseFloat : String → JsNum) (now : Int) (formData : FormData) :
    MenuItemData where
  name := jsTrim formData.name
  description := jsTrim formData.description
  price := parseFloat formData.price
  category := if formData.category = "" then "Other" else formData.category
  imageUrl := jsTrim formData.imageUrl
  createdAt := now
  available := true

/-- Where `handleAddItem` stands when it first gives up control. -/
inductive Started where
  | returned (effects : List Effect)
  | awaiting (effects : List Effect)
  deriving DecidableEq

/-- The part of `handleAddItem` up to `await addDoc(...)`. -/
def handleAddItemStart (parseFloat : String → JsNum) (now : Int) (formData : FormData) :
    Started :=
  match validateForm parseFloat formData with
  | (false, shown) => Started.returned shown
  | (true, shown) =>
    Started.awaiting
      (shown ++ [Effect.call (Call.setLoading true),
                 Effect.call (Call.addDoc "menuItems" (menuItem parseFloat now formData))])

/-- The part of `handleAddItem` after `addDoc` settles. -/
def handleAddItemResume (formData : FormData) : Settled String → List Effect
  | Settled.resolved _ =>
    [Effect.alert "Success!"
       [TplPart.lit "Menu item \"", TplPart.val (JsVal.str formData.name),
        TplPart.lit "\" has been added successfully!"]
       [AlertButton.mk "Add Another"
          [Call.setFormData ⟨"", "", "", "", ""⟩, Call.setImagePreview none],
        AlertButton.mk "Done" [Call.goBack]],
     Effect.call (Call.setLoading false)]
  | Settled.rejected _ =>
    [Effect.call (Call.consoleError "Error adding menu item:"),
     Effect.alert "Error" (text "Failed to add menu item. Please try again.") [],
     Effect.call (Call.setLoading false)]

/-- The whole of `handleAddItem`, given how `addDoc` settles if it is called. -/
def handleAddItem (parseFloat : String → JsNum) (now : Int) (formData : FormData)
    (sink : Settled String) : List Effect :=
  match handleAddItemStart parseFloat now formData with
  | Started.returned effects => effects
  | Started.awaiting effects => effects ++ handleAddItemResume formData sink

/-- The state of the screen, with the records `addDoc` has been given. -/
structure State where
  formData : FormData
  loading : Bool
  imagePreview : Option String
  written : List (String × MenuItemData)
  deriving DecidableEq

/-- One call, run on the state of the screen. -/
def runCall (c : Call) (st : State) : State :=
  match c with
  | Call.setLoading b => { st with loading := b }
  | Call.setFormData formData => { st with formData := formData }
  | Call.setImagePreview url => { st with imagePreview := url }
  | Call.addDoc coll data => { st with written := st.written ++ [(coll, data)] }
  | Call.goBack => st
  | Call.consoleError _ => st

/-- One effect, run on the state of the screen; showing an alert changes nothing. -/
def runEffect (e : Effect) (st : State) : State :=
  match e with
  | Effect.call c => runCall c st
  | Effect.alert _ _ _ => st

/-- A list of effects, run in order. -/
def runEffects (es : List Effect) (st : State) : State :=
  es.foldl (fun st e => runEffect e st) st

/-- A `parseFloat` that agrees with the built-in on the price strings of the samples. -/
def sampleParseFloat (s : String) : JsNum :=
  if s = "12.5" then JsNum.finite (25 / 2)
  else if s = "0" then JsNum.finite 0
  else if s = "Infinity" then JsNum.posInf
  else JsNum.nan

/-- A form that passes `validateForm`; name and image URL carry surrounding blanks and no
category is selected. -/
def sampleForm : FormData where
  name := " Margherita "
  description := "Tomato and mozzarella"
  price := "12.5"
  category := ""
  imageUrl := "https://img/m1 "

end AdminAddItemScreen

/-- The cart of the scenario of the spec: A with quantity 2 at 5.00 and B with quantity 1
at 7.50. -/
def scenarioCart : List CartLine :=
  [{ id := JsVal.str "A", name := JsVal.str "A", description := JsVal.str "",
     price := JsVal.num 5, imageUrl := JsVal.str "", quantity := 2 },
   { id := JsVal.str "B", name := JsVal.str "B", description := JsVal.str "",
     price := JsVal.num (15 / 2), imageUrl := JsVal.str "", quantity := 1 }]

/-- A document whose data carries a field named `id`. -/
def docWithOwnId : HomeScreen.Doc :=
  { id := "d1", data := [("name", JsVal.str "Margherita"), ("id", JsVal.str "x")] }

/-- Another document, with another identifier, whose data carries the same `id` field. -/
def docWithSameOwnId : HomeScreen.Doc :=
  { id := "d2", data := [("id", JsVal.str "x"), ("name", JsVal.str "Funghi")] }

/-- Customer details that pass the guard and carry surrounding blanks. -/
def paddedCustomer : CustomerInfo := ⟨" Ann ", "555 0100", "1 Main St"⟩

/-- A document as `handleAddItem` writes it: its data has no field named `id`. -/
def sampleDoc : HomeScreen.Doc :=
  { id := "m1",
    data := [("name", JsVal.str "Margherita"), ("description", JsVal.str "Tomato and mozzarella"),
             ("price", JsVal.num 10), ("category", JsVal.str "Pizza"),
             ("imageUrl", JsVal.str "https://img/m1"), ("available", JsVal.bool true)] }

/-- A second document written the same way, with another identifier. -/
def sampleDoc2 : HomeScreen.Doc :=
  { id := "m2", data := [("name", JsVal.str "Funghi"), ("price", JsVal.num 11)] }

/-! ## Lemmas on running effects -/

theorem runEffects_nil (ctx : CartOps) (scr : Screen) (w : App) :
    runEffects ctx scr [] w = w := rfl

theorem runEffects_cons (ctx : CartOps) (scr : Screen) (e : Effect) (es : List Effect)
    (w : App) : runEffects ctx scr (e :: es) w = runEffects ctx scr es (runEffect ctx scr e w) :=
  rfl

theorem runEffect_cartItems_of_not_mutation (ctx : CartOps) (scr : Screen) (e : Effect)
    (w : App) (h : e.isCartMutation = false) :
    (runEffect ctx scr e w).cartItems = w.cartItems := by
  cases e with
  | alert t m b => rfl
  | call c =>
    cases c <;> first
      | (cases scr <;> rfl)
      | rfl
      | (simp [Effect.isCartMutation, Call.isCartMutation] at h)

theorem runEffects_cartItems_of_no_mutation (ctx : CartOps) (scr : Screen)
    (es : List Effect) (w : App) (h : ∀ e ∈ es, e.isCartMutation = false) :
    (runEffects ctx scr es w).cartItems = w.cartItems := by
  induction es generalizing w with
  | nil => rfl
  | cons e es ih =>
    rw [runEffects_cons, ih _ (fun e he => h e (List.mem_cons_of_mem _ he)),
      runEffect_cartItems_of_not_mutation ctx scr e w (h e (List.mem_cons_self _ _))]

/-! ## Checkout -/

theorem handlePlaceOrderStart_missing (ctx : CartOps) (cartItems : List CartLine)
    (customerInfo : CustomerInfo)
    (h : (isBlank customerInfo.name || isBlank customerInfo.phone ||
      isBlank customerInfo.address) = true) :
    OrderSummaryScreen.handlePlaceOrderStart ctx cartItems customerInfo =
      OrderSummaryScreen.Started.returned
        [Effect.alert "Missing Information" (text "Please fill in all customer details.") []] := by
  simp only [OrderSummaryScreen.handlePlaceOrderStart, h, if_true]

theorem handlePlaceOrderStart_empty (ctx : CartOps) (customerInfo : CustomerInfo)
    (h : (isBlank customerInfo.name || isBlank customerInfo.phone ||
      isBlank customerInfo.address) = false) :
    OrderSummaryScreen.handlePlaceOrderStart ctx [] customerInfo =
      OrderSummaryScreen.Started.returned
        [Effect.alert "Empty Cart" (text "No items in cart to place order.") []] := by
  simp [OrderSummaryScreen.handlePlaceOrderStart, h]

theorem handlePlaceOrderStart_submit (ctx : CartOps) (cartItems : List CartLine)
    (customerInfo : CustomerInfo)
    (h : (isBlank customerInfo.name || isBlank customerInfo.phone ||
      isBlank customerInfo.address) = false) (hcart : cartItems ≠ []) :
    OrderSummaryScreen.handlePlaceOrderStart ctx cartItems customerInfo =
      OrderSummaryScreen.Started.awaiting
        [Effect.call (Call.setLoading true),
         Effect.call (Call.addDoc "orders"
           (OrderSummaryScreen.orderData ctx cartItems customerInfo))] := by
  have hlen : cartItems.length ≠ 0 := fun hl => hcart (List.length_eq_zero.mp hl)
  simp [OrderSummaryScreen.handlePlaceOrderStart, h, hlen]

theorem handlePlaceOrder_empty (ctx : CartOps) (customerInfo : CustomerInfo)
    (sink : Settled String) :
    OrderSummaryScreen.handlePlaceOrder ctx [] customerInfo sink =
        [Effect.alert "Missing Information" (text "Please fill in all customer details.") []] ∨
    OrderSummaryScreen.handlePlaceOrder ctx [] customerInfo sink =
        [Effect.alert "Empty Cart" (text "No items in cart to place order.") []] := by
  cases h : (isBlank customerInfo.name || isBlank customerInfo.phone ||
      isBlank customerInfo.address)
  · right
    simp only [OrderSummaryScreen.handlePlaceOrder, handlePlaceOrderStart_empty ctx customerInfo h]
  · left
    simp only [OrderSummaryScreen.handlePlaceOrder,
      handlePlaceOrderStart_missing ctx [] customerInfo h]

theorem handlePlaceOrder_submit (ctx : CartOps) (cartItems : List CartLine)
    (customerInfo : CustomerInfo) (sink : Settled String)
    (h : (isBlank customerInfo.name || isBlank customerInfo.phone ||
      isBlank customerInfo.address) = false) (hcart : cartItems ≠ []) :
    OrderSummaryScreen.handlePlaceOrder ctx cartItems customerInfo sink =
      [Effect.call (Call.setLoading true),
       Effect.call (Call.addDoc "orders"
         (OrderSummaryScreen.orderData ctx cartItems customerInfo))] ++
      OrderSummaryScreen.handlePlaceOrderResume sink := by
  simp only [OrderSummaryScreen.handlePlaceOrder,
    handlePlaceOrderStart_submit ctx cartItems customerInfo h hcart]

/-- C1. With an empty cart, whatever the customer details and whatever the sink would
answer, `handlePlaceOrder` returns before its `await`: it performs no `addDoc`, no
`setLoading` and no cart call, shows no alert button that could run one, and leaves the
state unchanged; `handleCheckout` does not navigate to `OrderSummary`. -/
theorem empty_cart_checkout_rejected (ctx : CartOps) (customerInfo : CustomerInfo)
    (sink : Settled String) (w : App) :
    (∃ effects, OrderSummaryScreen.handlePlaceOrderStart ctx [] customerInfo =
        OrderSummaryScreen.Started.returned effects) ∧
    (∀ e ∈ OrderSummaryScreen.handlePlaceOrder ctx [] customerInfo sink,
        e.isAddDoc = false ∧ e.isSetLoading = false ∧ e.isCartMutation = false) ∧
    alertButtons (OrderSummaryScreen.handlePlaceOrder ctx [] customerInfo sink) = [] ∧
    runEffects ctx Screen.orderSummary
        (OrderSummaryScreen.handlePlaceOrder ctx [] customerInfo sink) w = w ∧
    (∀ e ∈ CartScreen.handleCheckout [], e.isNavigateTo "OrderSummary" = false) ∧
    runEffects ctx Screen.cart (CartScreen.handleCheckout []) w = w := by
  refine ⟨?_, ?_, ?_, ?_, ?_, ?_⟩
  · cases h : (isBlank customerInfo.name || isBlank customerInfo.phone ||
        isBlank customerInfo.address)
    · exact ⟨_, handlePlaceOrderStart_empty ctx customerInfo h⟩
    · exact ⟨_, handlePlaceOrderStart_missing ctx [] customerInfo h⟩
  · intro e he
    rcases handlePlaceOrder_empty ctx customerInfo sink with h | h <;>
    · rw [h, List.mem_singleton] at he
      subst he
      exact ⟨rfl, rfl, rfl⟩
  · rcases handlePlaceOrder_empty ctx customerInfo sink with h | h <;> rw [h] <;> rfl
  · rcases handlePlaceOrder_empty ctx customerInfo sink with h | h <;> rw [h] <;> rfl
  · intro e he
    simp only [CartScreen.handleCheckout, List.length_nil, if_true, List.mem_singleton] at he
    subst he; rfl
  · rfl

/-- C2. With a non-empty cart and customer details that pass the guard, when `addDoc`
rejects, `handlePlaceOrder` runs its `catch` and `finally` blocks and ends normally: it
makes no cart call and shows no alert button, so the cart lines after it are the lines
before it, and `loading` is back to `false`. -/
theorem failed_order_keeps_cart (ctx : CartOps) (w : App) (error : String)
    (hcart : w.cartItems ≠ [])
    (hvalid : (isBlank w.customerInfo.name || isBlank w.customerInfo.phone ||
      isBlank w.customerInfo.address) = false) :
    OrderSummaryScreen.handlePlaceOrder ctx w.cartItems w.customerInfo (Settled.rejected error) =
      [Effect.call (Call.setLoading true),
       Effect.call (Call.addDoc "orders"
         (OrderSummaryScreen.orderData ctx w.cartItems w.customerInfo)),
       Effect.call (Call.consoleError "Error placing order:"),
       Effect.alert "Error" (text "Failed to place order. Please try again.") [],
       Effect.call (Call.setLoading false)] ∧
    (∀ e ∈ OrderSummaryScreen.handlePlaceOrder ctx w.cartItems w.customerInfo
        (Settled.rejected error), e.isCartMutation = false) ∧
    alertButtons (OrderSummaryScreen.handlePlaceOrder ctx w.cartItems w.customerInfo
        (Settled.rejected error)) = [] ∧
    (runEffects ctx Screen.orderSummary
        (OrderSummaryScreen.handlePlaceOrder ctx w.cartItems w.customerInfo
          (Settled.rejected error)) w).cartItems = w.cartItems ∧
    (runEffects ctx Screen.orderSummary
        (OrderSummaryScreen.handlePlaceOrder ctx w.cartItems w.customerInfo
          (Settled.rejected error)) w).orderLoading = false := by
  rw [handlePlaceOrder_submit ctx w.cartItems w.customerInfo _ hvalid hcart]
  refine ⟨rfl, ?_, rfl, rfl, rfl⟩
  intro e he
  simp only [OrderSummaryScreen.handlePlaceOrderResume, List.cons_append, List.nil_append,
    List.mem_cons, List.mem_singleton, List.not_mem_nil, or_false] at he
  rcases he with h | h | h | h | h <;> subst h <;> rfl

/-- Witness for C2 at `sampleApp`. -/
theorem failed_order_keeps_cart_witness :
    sampleApp.cartItems ≠ [] ∧
    (runEffects CartContext.useCart Screen.orderSummary
        (OrderSummaryScreen.handlePlaceOrder CartContext.useCart sampleApp.cartItems
          sampleApp.customerInfo (Settled.rejected "unavailable")) sampleApp).cartItems =
      [sampleLine] :=
  ⟨by simp [sampleApp],
   (failed_order_keeps_cart CartContext.useCart sampleApp "unavailable"
      (by simp [sampleApp]) (by decide)).2.2.2.1⟩

/-- C4. With a non-empty cart and customer details that pass the guard, `handlePlaceOrder`
calls `addDoc` exactly once, on the collection `orders`, with the record made of the entered
`customerInfo`, the cart lines in cart order as `items`, `getTotalPrice()` as `totalAmount`,
`getTotalItems()` as `totalItems`, the server timestamp placeholder as `orderDate` and
`"pending"` as `status`, however the sink answers. -/
theorem order_record_fields (ctx : CartOps) (cartItems : List CartLine)
    (customerInfo : CustomerInfo) (sink : Settled String)
    (hcart : cartItems ≠ [])
    (hvalid : (isBlank customerInfo.name || isBlank customerInfo.phone ||
      isBlank customerInfo.address) = false) :
    (OrderSummaryScreen.handlePlaceOrder ctx cartItems customerInfo sink).filter
        Effect.isAddDoc =
      [Effect.call (Call.addDoc "orders"
        { customerInfo := customerInfo
          items := cartItems
          totalAmount := ctx.getTotalPrice cartItems
          totalItems := ctx.getTotalItems cartItems
          orderDate := FieldValue.serverTimestamp
          status := "pending" })] := by
  rw [handlePlaceOrder_submit ctx cartItems customerInfo sink hvalid hcart]
  cases sink <;> rfl

/-- Witness for C4 at the cart `[sampleLine]` and `sampleCustomer`. -/
theorem order_record_fields_witness :
    (OrderSummaryScreen.handlePlaceOrder CartContext.useCart [sampleLine] sampleCustomer
        (Settled.resolved "o1")).filter Effect.isAddDoc =
      [Effect.call (Call.addDoc "orders"
        { customerInfo := sampleCustomer
          items := [sampleLine]
          totalAmount := CartContext.useCart.getTotalPrice [sampleLine]
          totalItems := CartContext.useCart.getTotalItems [sampleLine]
          orderDate := FieldValue.serverTimestamp
          status := "pending" })] :=
  order_record_fields CartContext.useCart [sampleLine] sampleCustomer (Settled.resolved "o1")
    (by simp) (by decide)

/-- C5, as the claim states it, fails: at `sampleApp`, when `addDoc` resolves,
`handlePlaceOrder` itself makes no `clearCart` call and the cart still holds its line when
the handler has finished. -/
theorem order_success_no_direct_clear :
    (∀ e ∈ OrderSummaryScreen.handlePlaceOrder CartContext.useCart sampleApp.cartItems
        sampleApp.customerInfo (Settled.resolved "o1"), e.isClearCart = false) ∧
    (runEffects CartContext.useCart Screen.orderSummary
        (OrderSummaryScreen.handlePlaceOrder CartContext.useCart sampleApp.cartItems
          sampleApp.customerInfo (Settled.resolved "o1")) sampleApp).cartItems = [sampleLine] := by
  have h := handlePlaceOrder_submit CartContext.useCart sampleApp.cartItems
    sampleApp.customerInfo (Settled.resolved "o1") (by decide) (by simp [sampleApp])
  rw [h]
  refine ⟨?_, rfl⟩
  intro e he
  simp only [OrderSummaryScreen.handlePlaceOrderResume, List.cons_append, List.nil_append,
    List.mem_cons, List.mem_singleton, List.not_mem_nil, or_false] at he
  rcases he with h | h | h | h <;> subst h <;> rfl

/-- C5, amended. With a non-empty cart and customer details that pass the guard, when
`addDoc` resolves with an order identifier, `handlePlaceOrder` shows the success alert with
the single button `OK`, whose `onPress` is `clearCart()` then `navigate('Main')`; the
handler itself makes no cart call and leaves the cart as it was; the press on `OK` runs
`clearCart`, and if `clearCart` empties the cart the cart is empty after that press. -/
theorem order_success_clears_on_ok (ctx : CartOps) (w : App) (docId : String)
    (hcart : w.cartItems ≠ [])
    (hvalid : (isBlank w.customerInfo.name || isBlank w.customerInfo.phone ||
      isBlank w.customerInfo.address) = false)
    (hclear : ∀ cart, ctx.clearCart cart = []) :
    alertButtons (OrderSummaryScreen.handlePlaceOrder ctx w.cartItems w.customerInfo
        (Settled.resolved docId)) =
      [AlertButton.mk "OK" [Call.clearCart, Call.navigate "Main"]] ∧
    (∀ e ∈ OrderSummaryScreen.handlePlaceOrder ctx w.cartItems w.customerInfo
        (Settled.resolved docId), e.isCartMutation = false) ∧
    (runEffects ctx Screen.orderSummary
        (OrderSummaryScreen.handlePlaceOrder ctx w.cartItems w.customerInfo
          (Settled.resolved docId)) w).cartItems = w.cartItems ∧
    (∀ b ∈ alertButtons (OrderSummaryScreen.handlePlaceOrder ctx w.cartItems w.customerInfo
        (Settled.resolved docId)),
      (pressAlertButton ctx b (runEffects ctx Screen.orderSummary
        (OrderSummaryScreen.handlePlaceOrder ctx w.cartItems w.customerInfo
          (Settled.resolved docId)) w)).cartItems = []) := by
  rw [handlePlaceOrder_submit ctx w.cartItems w.customerInfo _ hvalid hcart]
  refine ⟨rfl, ?_, rfl, ?_⟩
  · intro e he
    simp only [OrderSummaryScreen.handlePlaceOrderResume, List.cons_append, List.nil_append,
      List.mem_cons, List.mem_singleton, List.not_mem_nil, or_false] at he
    rcases he with h | h | h | h <;> subst h <;> rfl
  · intro b hb
    have hb2 : b = AlertButton.mk "OK" [Call.clearCart, Call.navigate "Main"] := by
      simpa [alertButtons, OrderSummaryScreen.handlePlaceOrderResume] using hb
    subst hb2
    exact hclear _

/-- Witness for C5, amended, at `sampleApp` with the cart context of the spec. -/
theorem order_success_clears_on_ok_witness :
    sampleApp.cartItems ≠ [] ∧
    (∀ b ∈ alertButtons (OrderSummaryScreen.handlePlaceOrder CartContext.useCart
        sampleApp.cartItems sampleApp.customerInfo (Settled.resolved "o1")),
      (pressAlertButton CartContext.useCart b (runEffects CartContext.useCart
        Screen.orderSummary
        (OrderSummaryScreen.handlePlaceOrder CartContext.useCart sampleApp.cartItems
          sampleApp.customerInfo (Settled.resolved "o1")) sampleApp)).cartItems = []) :=
  ⟨by simp [sampleApp],
   (order_success_clears_on_ok CartContext.useCart sampleApp "o1"
      (by simp [sampleApp]) (by decide) (fun _ => rfl)).2.2.2⟩

theorem invokePlaceOrder_cases (ctx : CartOps) (w : App) :
    OrderSummaryScreen.invokePlaceOrder ctx w = w ∨
    OrderSummaryScreen.invokePlaceOrder ctx w =
      { w with orderLoading := true
               outstanding := w.outstanding ++
                 [("orders", OrderSummaryScreen.orderData ctx w.cartItems w.customerInfo)] } := by
  cases h : (isBlank w.customerInfo.name || isBlank w.customerInfo.phone ||
      isBlank w.customerInfo.address)
  · by_cases hcart : w.cartItems = []
    · left
      simp only [OrderSummaryScreen.invokePlaceOrder, hcart,
        handlePlaceOrderStart_empty ctx w.customerInfo h]
      rfl
    · right
      simp only [OrderSummaryScreen.invokePlaceOrder,
        handlePlaceOrderStart_submit ctx w.cartItems w.customerInfo h hcart]
      rfl
  · left
    simp only [OrderSummaryScreen.invokePlaceOrder,
      handlePlaceOrderStart_missing ctx w.cartItems w.customerInfo h]
    rfl

theorem handlePlaceOrderResume_run (ctx : CartOps) (sink : Settled String) (w : App) :
    (runEffects ctx Screen.orderSummary
      (OrderSummaryScreen.handlePlaceOrderResume sink) w).orderLoading = false ∧
    (runEffects ctx Screen.orderSummary
      (OrderSummaryScreen.handlePlaceOrderResume sink) w).outstanding = w.outstanding := by
  cases sink <;> exact ⟨rfl, rfl⟩

theorem pressPlaceOrder_of_loading (ctx : CartOps) (w : App) (h : w.orderLoading = true) :
    OrderSummaryScreen.pressPlaceOrder ctx w = w := by
  simp only [OrderSummaryScreen.pressPlaceOrder, h, if_true]

theorem pressPlaceOrder_of_not_loading (ctx : CartOps) (w : App)
    (h : w.orderLoading = false) :
    OrderSummaryScreen.pressPlaceOrder ctx w = OrderSummaryScreen.invokePlaceOrder ctx w := by
  simp [OrderSummaryScreen.pressPlaceOrder, h]

theorem settleAddDoc_nil (ctx : CartOps) (sink : Settled String) (w : App)
    (h : w.outstanding = []) : OrderSummaryScreen.settleAddDoc ctx sink w = w := by
  simp only [OrderSummaryScreen.settleAddDoc, h]

theorem settleAddDoc_cons (ctx : CartOps) (sink : Settled String) (w : App)
    (x : String × OrderData) (rest : List (String × OrderData))
    (h : w.outstanding = x :: rest) :
    OrderSummaryScreen.settleAddDoc ctx sink w =
      runEffects ctx Screen.orderSummary (OrderSummaryScreen.handlePlaceOrderResume sink)
        { w with outstanding := rest } := by
  simp only [OrderSummaryScreen.settleAddDoc, h]

theorem pressPlaceOrder_outstanding (ctx : CartOps) (w : App)
    (h : (w.orderLoading = true ∧ w.outstanding.length = 1) ∨
      (w.orderLoading = false ∧ w.outstanding = [])) :
    ((OrderSummaryScreen.pressPlaceOrder ctx w).orderLoading = true ∧
      (OrderSummaryScreen.pressPlaceOrder ctx w).outstanding.length = 1) ∨
    ((OrderSummaryScreen.pressPlaceOrder ctx w).orderLoading = false ∧
      (OrderSummaryScreen.pressPlaceOrder ctx w).outstanding = []) := by
  rcases h with ⟨hl, hn⟩ | ⟨hl, hn⟩
  · have hp := pressPlaceOrder_of_loading ctx w hl
    exact Or.inl ⟨by rw [hp]; exact hl, by rw [hp]; exact hn⟩
  · have hp := pressPlaceOrder_of_not_loading ctx w hl
    rcases invokePlaceOrder_cases ctx w with hw | hw
    · exact Or.inr ⟨by rw [hp, hw]; exact hl, by rw [hp, hw]; exact hn⟩
    · exact Or.inl ⟨by rw [hp, hw], by rw [hp, hw]; simp [hn]⟩

theorem settleAddDoc_outstanding (ctx : CartOps) (sink : Settled String) (w : App)
    (h : (w.orderLoading = true ∧ w.outstanding.length = 1) ∨
      (w.orderLoading = false ∧ w.outstanding = [])) :
    (OrderSummaryScreen.settleAddDoc ctx sink w).orderLoading = false ∧
    (OrderSummaryScreen.settleAddDoc ctx sink w).outstanding = [] := by
  rcases h with ⟨hl, hn⟩ | ⟨hl, hn⟩
  · obtain ⟨x, rest, hx⟩ : ∃ x rest, w.outstanding = x :: rest := by
      cases hw : w.outstanding with
      | nil => rw [hw] at hn; simp at hn
      | cons x rest => exact ⟨x, rest, rfl⟩
    have hrest : rest = [] := by
      rw [hx] at hn
      simpa using hn
    have hs := settleAddDoc_cons ctx sink w x rest hx
    have hr := handlePlaceOrderResume_run ctx sink { w with outstanding := rest }
    exact ⟨by rw [hs]; exact hr.1, by rw [hs, hr.2]; exact hrest⟩
  · have hs := settleAddDoc_nil ctx sink w hn
    exact ⟨by rw [hs]; exact hl, by rw [hs]; exact hn⟩

theorem handleCheckout_run (ctx : CartOps) (w : App) (cartItems : List CartLine) :
    (runEffects ctx Screen.cart (CartScreen.handleCheckout cartItems) w).outstanding =
      w.outstanding := by
  unfold CartScreen.handleCheckout
  split <;> rfl

theorem step_outstanding (ctx : CartOps) (n : OrderSummaryScreen.Nav)
    (ev : OrderSummaryScreen.Event)
    (h : (n.mounted = true ∧
        ((n.app.orderLoading = true ∧ n.app.outstanding.length = 1) ∨
          (n.app.orderLoading = false ∧ n.app.outstanding = []))) ∨
      (n.mounted = false ∧ n.app.outstanding = [])) :
    ((OrderSummaryScreen.step ctx n ev).mounted = true ∧
        (((OrderSummaryScreen.step ctx n ev).app.orderLoading = true ∧
            (OrderSummaryScreen.step ctx n ev).app.outstanding.length = 1) ∨
          ((OrderSummaryScreen.step ctx n ev).app.orderLoading = false ∧
            (OrderSummaryScreen.step ctx n ev).app.outstanding = []))) ∨
      ((OrderSummaryScreen.step ctx n ev).mounted = false ∧
        (OrderSummaryScreen.step ctx n ev).app.outstanding = []) := by
  rcases h with ⟨hm, ha⟩ | ⟨hm, hn⟩
  · cases ev with
    | pressPlaceOrder =>
      have hs : OrderSummaryScreen.step ctx n OrderSummaryScreen.Event.pressPlaceOrder =
          { n with app := OrderSummaryScreen.pressPlaceOrder ctx n.app } := by
        simp only [OrderSummaryScreen.step, hm, if_true]
      rw [hs]
      exact Or.inl ⟨hm, pressPlaceOrder_outstanding ctx n.app ha⟩
    | settle sink =>
      have hs : OrderSummaryScreen.step ctx n (OrderSummaryScreen.Event.settle sink) =
          { n with app := OrderSummaryScreen.settleAddDoc ctx sink n.app } := by
        simp only [OrderSummaryScreen.step, hm, if_true]
      rw [hs]
      exact Or.inl ⟨hm, Or.inr (settleAddDoc_outstanding ctx sink n.app ha)⟩
    | settleOrphaned sink =>
      cases ho : n.orphaned with
      | nil =>
        have hs : OrderSummaryScreen.step ctx n
            (OrderSummaryScreen.Event.settleOrphaned sink) = n := by
          simp only [OrderSummaryScreen.step, ho]
        rw [hs]
        exact Or.inl ⟨hm, ha⟩
      | cons x rest =>
        have hs : OrderSummaryScreen.step ctx n
            (OrderSummaryScreen.Event.settleOrphaned sink) = { n with orphaned := rest } := by
          simp only [OrderSummaryScreen.step, ho]
        rw [hs]
        exact Or.inl ⟨hm, ha⟩
    | editCustomerInfo info =>
      have hs : OrderSummaryScreen.step ctx n
          (OrderSummaryScreen.Event.editCustomerInfo info) =
          { n with app := { n.app with customerInfo := info } } := by
        simp only [OrderSummaryScreen.step, hm, if_true]
      rw [hs]
      exact Or.inl ⟨hm, ha⟩
    | cartChanged cartItems => exact Or.inl ⟨hm, ha⟩
    | leave =>
      have hs : OrderSummaryScreen.step ctx n OrderSummaryScreen.Event.leave =
          OrderSummaryScreen.unmount n := by
        simp only [OrderSummaryScreen.step, hm, if_true]
      rw [hs]
      exact Or.inr ⟨rfl, rfl⟩
    | pressCheckout =>
      have hs : OrderSummaryScreen.step ctx n OrderSummaryScreen.Event.pressCheckout = n := by
        simp only [OrderSummaryScreen.step, hm, if_true]
      rw [hs]
      exact Or.inl ⟨hm, ha⟩
  · cases ev with
    | pressPlaceOrder =>
      have hs : OrderSummaryScreen.step ctx n OrderSummaryScreen.Event.pressPlaceOrder = n := by
        simp only [OrderSummaryScreen.step, hm, Bool.false_eq_true, if_false]
      rw [hs]
      exact Or.inr ⟨hm, hn⟩
    | settle sink =>
      have hs : OrderSummaryScreen.step ctx n (OrderSummaryScreen.Event.settle sink) = n := by
        simp only [OrderSummaryScreen.step, hm, Bool.false_eq_true, if_false]
      rw [hs]
      exact Or.inr ⟨hm, hn⟩
    | settleOrphaned sink =>
      cases ho : n.orphaned with
      | nil =>
        have hs : OrderSummaryScreen.step ctx n
            (OrderSummaryScreen.Event.settleOrphaned sink) = n := by
          simp only [OrderSummaryScreen.step, ho]
        rw [hs]
        exact Or.inr ⟨hm, hn⟩
      | cons x rest =>
        have hs : OrderSummaryScreen.step ctx n
            (OrderSummaryScreen.Event.settleOrphaned sink) = { n with orphaned := rest } := by
          simp only [OrderSummaryScreen.step, ho]
        rw [hs]
        exact Or.inr ⟨hm, hn⟩
    | editCustomerInfo info =>
      have hs : OrderSummaryScreen.step ctx n
          (OrderSummaryScreen.Event.editCustomerInfo info) = n := by
        simp only [OrderSummaryScreen.step, hm, Bool.false_eq_true, if_false]
      rw [hs]
      exact Or.inr ⟨hm, hn⟩
    | cartChanged cartItems => exact Or.inr ⟨hm, hn⟩
    | leave =>
      have hs : OrderSummaryScreen.step ctx n OrderSummaryScreen.Event.leave = n := by
        simp only [OrderSummaryScreen.step, hm, Bool.false_eq_true, if_false]
      rw [hs]
      exact Or.inr ⟨hm, hn⟩
    | pressCheckout =>
      by_cases hr : (CartScreen.handleCheckout n.app.cartItems).any
          (Effect.isNavigateTo "OrderSummary") = true
      · have hs : OrderSummaryScreen.step ctx n OrderSummaryScreen.Event.pressCheckout =
            { n with
              app := OrderSummaryScreen.mount
                (runEffects ctx Screen.cart (CartScreen.handleCheckout n.app.cartItems) n.app)
              mounted := true } := by
          simp only [OrderSummaryScreen.step, hm, Bool.false_eq_true, if_false, hr, if_true]
        rw [hs]
        exact Or.inl ⟨rfl, Or.inr ⟨rfl, by
          show (runEffects ctx Screen.cart (CartScreen.handleCheckout n.app.cartItems)
            n.app).outstanding = []
          rw [handleCheckout_run]; exact hn⟩⟩
      · have hs : OrderSummaryScreen.step ctx n OrderSummaryScreen.Event.pressCheckout =
            { n with
              app := runEffects ctx Screen.cart
                (CartScreen.handleCheckout n.app.cartItems) n.app } := by
          simp only [OrderSummaryScreen.step, hm, Bool.false_eq_true, if_false, hr]
        rw [hs]
        exact Or.inr ⟨hm, by
          show (runEffects ctx Screen.cart (CartScreen.handleCheckout n.app.cartItems)
            n.app).outstanding = []
          rw [handleCheckout_run]; exact hn⟩

theorem run_outstanding (ctx : CartOps) (events : List OrderSummaryScreen.Event)
    (n : OrderSummaryScreen.Nav)
    (h : (n.mounted = true ∧
        ((n.app.orderLoading = true ∧ n.app.outstanding.length = 1) ∨
          (n.app.orderLoading = false ∧ n.app.outstanding = []))) ∨
      (n.mounted = false ∧ n.app.outstanding = [])) :
    ((OrderSummaryScreen.run ctx n events).mounted = true ∧
        (((OrderSummaryScreen.run ctx n events).app.orderLoading = true ∧
            (OrderSummaryScreen.run ctx n events).app.outstanding.length = 1) ∨
          ((OrderSummaryScreen.run ctx n events).app.orderLoading = false ∧
            (OrderSummaryScreen.run ctx n events).app.outstanding = []))) ∨
      ((OrderSummaryScreen.run ctx n events).mounted = false ∧
        (OrderSummaryScreen.run ctx n events).app.outstanding = []) := by
  induction events generalizing n with
  | nil => exact h
  | cons ev evs ih => exact ih _ (step_outstanding ctx n ev h)

/-- C3, as the claim states it, fails: `loading` is `useState(false)` of one instance of
the screen, and the cart is cleared only on `OK` of the success alert.  From `sampleApp`,
along `reentryEvents`, the first `addDoc` is still outstanding when the button of the new
instance, whose `loading` is `false`, is pressed: a second `addDoc` is issued for the same
cart lines, and two submissions are outstanding. -/
theorem reentered_screen_submits_again :
    (OrderSummaryScreen.run CartContext.useCart (OrderSummaryScreen.Nav.start sampleApp)
      [OrderSummaryScreen.Event.pressPlaceOrder]).pending.length = 1 ∧
    (OrderSummaryScreen.run CartContext.useCart (OrderSummaryScreen.Nav.start sampleApp)
      (reentryEvents.take 4)).app.orderLoading = false ∧
    (OrderSummaryScreen.run CartContext.useCart (OrderSummaryScreen.Nav.start sampleApp)
      (reentryEvents.take 4)).pending.length = 1 ∧
    (OrderSummaryScreen.run CartContext.useCart (OrderSummaryScreen.Nav.start sampleApp)
      reentryEvents).pending.length = 2 ∧
    (OrderSummaryScreen.run CartContext.useCart (OrderSummaryScreen.Nav.start sampleApp)
      reentryEvents).pending.map (fun p => (p.1, p.2.items)) =
      [("orders", [sampleLine]), ("orders", [sampleLine])] := by
  refine ⟨?_, ?_, ?_, ?_, ?_⟩ <;> decide

/-- C3, amended. The guard is on the button of the mounted instance of the screen, not in
the handler: while `loading` is `true` the place-order button is disabled and a press on
it does not invoke `handlePlaceOrder`, so no `addDoc` is issued.  Over every sequence of
button presses, sink answers, edits of the customer details, cart changes, leaving the
screen and entering it again, starting with no submission of the instance in flight,
the instance on screen has at most one `addDoc` of its own outstanding, and while it has
one its `loading` is `true` and a press changes nothing. -/
theorem at_most_one_submission_by_button (ctx : CartOps) (n0 : OrderSummaryScreen.Nav)
    (events : List OrderSummaryScreen.Event)
    (hload : n0.app.orderLoading = false) (hout : n0.app.outstanding = []) :
    (OrderSummaryScreen.run ctx n0 events).app.outstanding.length ≤ 1 ∧
    ((OrderSummaryScreen.run ctx n0 events).app.outstanding ≠ [] →
      (OrderSummaryScreen.run ctx n0 events).mounted = true ∧
      (OrderSummaryScreen.run ctx n0 events).app.orderLoading = true ∧
      OrderSummaryScreen.step ctx (OrderSummaryScreen.run ctx n0 events)
          OrderSummaryScreen.Event.pressPlaceOrder =
        OrderSummaryScreen.run ctx n0 events) ∧
    (∀ n : OrderSummaryScreen.Nav, n.app.orderLoading = true →
      OrderSummaryScreen.step ctx n OrderSummaryScreen.Event.pressPlaceOrder = n) := by
  have hpress : ∀ n : OrderSummaryScreen.Nav, n.app.orderLoading = true →
      OrderSummaryScreen.step ctx n OrderSummaryScreen.Event.pressPlaceOrder = n := by
    intro n hl
    obtain ⟨app, mounted, orphaned⟩ := n
    cases mounted
    · rfl
    · have hp := pressPlaceOrder_of_loading ctx app hl
      simp only [OrderSummaryScreen.step, if_true, hp]
  have hstart : (n0.mounted = true ∧
        ((n0.app.orderLoading = true ∧ n0.app.outstanding.length = 1) ∨
          (n0.app.orderLoading = false ∧ n0.app.outstanding = []))) ∨
      (n0.mounted = false ∧ n0.app.outstanding = []) := by
    cases hm : n0.mounted
    · exact Or.inr ⟨rfl, hout⟩
    · exact Or.inl ⟨rfl, Or.inr ⟨hload, hout⟩⟩
  refine ⟨?_, ?_, hpress⟩
  · rcases run_outstanding ctx events n0 hstart with ⟨_, ⟨_, hn⟩ | ⟨_, hn⟩⟩ | ⟨_, hn⟩
    · omega
    · simp [hn]
    · simp [hn]
  · intro hne
    rcases run_outstanding ctx events n0 hstart with ⟨hm, ⟨hl, _⟩ | ⟨_, hn⟩⟩ | ⟨_, hn⟩
    · exact ⟨hm, hl, hpress _ hl⟩
    · exact absurd hn hne
    · exact absurd hn hne

/-- Witness for C3, amended: from `sampleApp`, two presses in a row leave one `addDoc`
outstanding, and so does the instance entered again along `reentryEvents`. -/
theorem at_most_one_submission_by_button_witness :
    sampleApp.orderLoading = false ∧ sampleApp.outstanding = [] ∧
    (OrderSummaryScreen.run CartContext.useCart (OrderSummaryScreen.Nav.start sampleApp)
      [OrderSummaryScreen.Event.pressPlaceOrder,
       OrderSummaryScreen.Event.pressPlaceOrder]).app.outstanding.length ≤ 1 ∧
    (OrderSummaryScreen.run CartContext.useCart (OrderSummaryScreen.Nav.start sampleApp)
      (reentryEvents ++ [OrderSummaryScreen.Event.pressPlaceOrder])).app.outstanding.length
      ≤ 1 :=
  ⟨rfl, rfl,
   (at_most_one_submission_by_button CartContext.useCart
      (OrderSummaryScreen.Nav.start sampleApp)
      [OrderSummaryScreen.Event.pressPlaceOrder, OrderSummaryScreen.Event.pressPlaceOrder]
      rfl rfl).1,
   (at_most_one_submission_by_button CartContext.useCart
      (OrderSummaryScreen.Nav.start sampleApp)
      (reentryEvents ++ [OrderSummaryScreen.Event.pressPlaceOrder]) rfl rfl).1⟩

/-! ## Cart lines -/

/-- C6. On a line with quantity 1, `handleDecrement` calls `removeFromCart(item.id)` and
nothing else; on a line with quantity above 1 it calls `updateQuantity(item.id, q - 1)` and
nothing else; whatever the line, it never passes a quantity below 1 to `updateQuantity`. -/
theorem handleDecrement_removes_or_lowers (item : CartLine) :
    (item.quantity = 1 →
      CartItem.handleDecrement item = [Effect.call (Call.removeFromCart item.id)]) ∧
    (1 < item.quantity →
      CartItem.handleDecrement item =
        [Effect.call (Call.updateQuantity item.id (item.quantity - 1))]) ∧
    (∀ id q, Effect.call (Call.updateQuantity id q) ∈ CartItem.handleDecrement item →
      1 ≤ q) := by
  refine ⟨?_, ?_, ?_⟩
  · intro h
    simp [CartItem.handleDecrement, h]
  · intro h
    simp [CartItem.handleDecrement, h]
  · intro id q hmem
    unfold CartItem.handleDecrement at hmem
    split at hmem
    · simp only [List.mem_singleton, Effect.call.injEq, Call.updateQuantity.injEq] at hmem
      omega
    · simp at hmem

/-- Witness for C6 at `sampleLine` (quantity 2) and at the same line with quantity 1. -/
theorem handleDecrement_removes_or_lowers_witness :
    CartItem.handleDecrement { sampleLine with quantity := 1 } =
      [Effect.call (Call.removeFromCart (JsVal.str "m1"))] ∧
    CartItem.handleDecrement sampleLine =
      [Effect.call (Call.updateQuantity (JsVal.str "m1") (2 - 1))] :=
  ⟨(handleDecrement_removes_or_lowers { sampleLine with quantity := 1 }).1 rfl,
   (handleDecrement_removes_or_lowers sampleLine).2.1 (by decide)⟩

/-- C8. On a line with quantity `q`, `handleIncrement` makes exactly one call,
`updateQuantity(item.id, q + 1)`: no call for another id, no removal, no alert. -/
theorem handleIncrement_requests_next (item : CartLine) :
    CartItem.handleIncrement item =
      [Effect.call (Call.updateQuantity item.id (item.quantity + 1))] ∧
    (∀ e ∈ CartItem.handleIncrement item,
      e = Effect.call (Call.updateQuantity item.id (item.quantity + 1))) := by
  refine ⟨rfl, ?_⟩
  intro e he
  simpa [CartItem.handleIncrement] using he

theorem addToCart_quantities (item : JsObj) (cart : List CartLine)
    (h : ∀ l ∈ cart, 1 ≤ l.quantity) :
    ∀ l ∈ CartContext.addToCart item cart, 1 ≤ l.quantity := by
  intro l hl
  unfold CartContext.addToCart at hl
  split at hl
  · split at hl
    · obtain ⟨l0, hl0, hmap⟩ := List.mem_map.mp hl
      have h0 := h l0 hl0
      split at hmap
      · subst hmap
        show 1 ≤ l0.quantity + 1
        omega
      · subst hmap
        exact h0
    · rcases List.mem_append.mp hl with hl | hl
      · exact h l hl
      · rw [List.mem_singleton] at hl
        subst hl
        exact le_refl _
  · exact h l hl

theorem updateQuantity_quantities (id : JsVal) (qty : Int) (cart : List CartLine)
    (h : ∀ l ∈ cart, 1 ≤ l.quantity) :
    ∀ l ∈ CartContext.updateQuantity id qty cart, 1 ≤ l.quantity := by
  intro l hl
  unfold CartContext.updateQuantity at hl
  split at hl
  · obtain ⟨l0, hl0, hmap⟩ := List.mem_map.mp hl
    split at hmap
    · subst hmap
      assumption
    · subst hmap
      exact h l0 hl0
  · split at hl
    · exact h l (List.mem_filter.mp hl).1
    · exact h l hl

theorem removeFromCart_quantities (id : JsVal) (cart : List CartLine)
    (h : ∀ l ∈ cart, 1 ≤ l.quantity) :
    ∀ l ∈ CartContext.removeFromCart id cart, 1 ≤ l.quantity :=
  fun l hl => h l (List.mem_filter.mp hl).1

theorem session_step_quantities (w : App) (a : Session.Action)
    (h : ∀ l ∈ w.cartItems, 1 ≤ l.quantity) :
    ∀ l ∈ (Session.step CartContext.useCart w a).cartItems, 1 ≤ l.quantity := by
  cases a with
  | add item => exact addToCart_quantities item w.cartItems h
  | increment index =>
    simp only [Session.step]
    split
    · exact updateQuantity_quantities _ _ w.cartItems h
    · exact h
  | decrement index =>
    simp only [Session.step]
    split
    · rename_i line _
      unfold CartItem.handleDecrement
      split
      · exact updateQuantity_quantities _ _ w.cartItems h
      · exact removeFromCart_quantities _ w.cartItems h
    · exact h

theorem session_run_quantities (actions : List Session.Action) (w : App)
    (h : ∀ l ∈ w.cartItems, 1 ≤ l.quantity) :
    ∀ l ∈ (Session.run CartContext.useCart w actions).cartItems, 1 ≤ l.quantity := by
  induction actions generalizing w with
  | nil => exact h
  | cons a rest ih => exact ih _ (session_step_quantities w a h)

/-- C7. With the cart context of the spec, starting from an empty cart, after every finite
sequence of `handleAddToCart`, `handleIncrement` and `handleDecrement` presses every line
of the cart has quantity at least 1; whatever the line, `handleDecrement` never passes a
quantity below 1 to `updateQuantity`, and on a line with quantity `q ≥ 1`
`handleIncrement` passes `q + 1 ≥ 2`. -/
theorem cart_quantities_stay_positive (w0 : App) (actions : List Session.Action)
    (hempty : w0.cartItems = []) :
    (∀ l ∈ (Session.run CartContext.useCart w0 actions).cartItems, 1 ≤ l.quantity) ∧
    (∀ (item : CartLine) (id : JsVal) (q : Int),
      Effect.call (Call.updateQuantity id q) ∈ CartItem.handleDecrement item → 1 ≤ q) ∧
    (∀ (item : CartLine) (id : JsVal) (q : Int), 1 ≤ item.quantity →
      Effect.call (Call.updateQuantity id q) ∈ CartItem.handleIncrement item →
      q = item.quantity + 1 ∧ 2 ≤ q) := by
  refine ⟨?_, ?_, ?_⟩
  · apply session_run_quantities
    rw [hempty]
    intro l hl
    cases hl
  · intro item id q hmem
    unfold CartItem.handleDecrement at hmem
    split at hmem
    · simp only [List.mem_singleton, Effect.call.injEq, Call.updateQuantity.injEq] at hmem
      omega
    · simp at hmem
  · intro item id q hq hmem
    simp only [CartItem.handleIncrement, List.mem_singleton, Effect.call.injEq,
      Call.updateQuantity.injEq] at hmem
    omega

/-- Witness for C7: add `sampleItem` twice, decrement it twice, add it again, increment. -/
theorem cart_quantities_stay_positive_witness :
    App.initial.cartItems = [] ∧
    (Session.run CartContext.useCart App.initial
        [Session.Action.add sampleItem, Session.Action.add sampleItem]).cartItems =
      [sampleLine] ∧
    (∀ l ∈ (Session.run CartContext.useCart App.initial
        [Session.Action.add sampleItem, Session.Action.add sampleItem,
         Session.Action.decrement 0, Session.Action.decrement 0,
         Session.Action.add sampleItem, Session.Action.increment 0]).cartItems,
      1 ≤ l.quantity) :=
  ⟨rfl, by decide,
   (cart_quantities_stay_positive App.initial
      [Session.Action.add sampleItem, Session.Action.add sampleItem,
       Session.Action.decrement 0, Session.Action.decrement 0,
       Session.Action.add sampleItem, Session.Action.increment 0] rfl).1⟩

/-- C9, as the claim states it, fails: for `unavailableItem`, whose `available` flag is
`false`, `handleAddToCart` still calls `addToCart` with the item and shows the `Success`
alert. -/
theorem unavailable_item_still_added :
    getProp unavailableItem "available" = JsVal.bool false ∧
    HomeScreen.handleAddToCart unavailableItem =
      [Effect.call (Call.addToCart unavailableItem),
       Effect.alert "Success"
         [TplPart.val (JsVal.str "Margherita"), TplPart.lit " added to cart!"] []] := by
  constructor <;> decide

/-- C9, amended. `handleAddToCart` does not read the `available` flag: for every catalog
item, also one whose flag is `false`, it calls `addToCart(item)` once and then shows the
`Success` alert, and it shows no other alert.  The cart after it is what `addToCart`
returns, so it is left unchanged exactly when `addToCart` itself rejects the item. -/
theorem handleAddToCart_ignores_available (ctx : CartOps) (item : JsObj) (w : App) :
    HomeScreen.handleAddToCart item =
      [Effect.call (Call.addToCart item),
       Effect.alert "Success"
         [TplPart.val (getProp item "name"), TplPart.lit " added to cart!"] []] ∧
    (∀ title message buttons,
      Effect.alert title message buttons ∈ HomeScreen.handleAddToCart item →
      title = "Success") ∧
    (runEffects ctx Screen.home (HomeScreen.handleAddToCart item) w).cartItems =
      ctx.addToCart item w.cartItems := by
  refine ⟨rfl, ?_, rfl⟩
  intro title message buttons hmem
  simp only [HomeScreen.handleAddToCart, List.mem_cons, List.mem_singleton, Effect.alert.injEq,
    List.not_mem_nil, or_false] at hmem
  rcases hmem with hmem | hmem
  · cases hmem
  · exact hmem.1

/-- C10. A catalog update sets only `menuItems` and the `loading` of `HomeScreen`: after
the success callback of `onSnapshot`, and after each part of `fetchMenuItems` (before and
after `getDocs` settles), every other part of the state, the cart lines and their prices
among them, is as before, whatever documents the update carries; a `fetchMenuItems` whose
`getDocs` rejects leaves the cart lines as they were too. -/
theorem catalog_update_keeps_cart (ctx : CartOps) (w : App) (docs : List HomeScreen.Doc)
    (source : Settled (List HomeScreen.Doc)) :
    runEffects ctx Screen.home (HomeScreen.onSnapshotNext docs) w =
      { w with menuItems := docs.map HomeScreen.itemOfDoc, homeLoading := false } ∧
    runEffects ctx Screen.home (HomeScreen.fetchMenuItems (Settled.resolved docs)) w =
      { w with menuItems := docs.map HomeScreen.itemOfDoc, homeLoading := false } ∧
    runEffects ctx Screen.home HomeScreen.fetchMenuItemsStart w =
      { w with homeLoading := true } ∧
    runEffects ctx Screen.home (HomeScreen.fetchMenuItemsResume (Settled.resolved docs)) w =
      { w with menuItems := docs.map HomeScreen.itemOfDoc, homeLoading := false } ∧
    (runEffects ctx Screen.home (HomeScreen.onSnapshotNext docs) w).cartItems = w.cartItems ∧
    (runEffects ctx Screen.home (HomeScreen.fetchMenuItems (Settled.resolved docs))
      w).cartItems = w.cartItems ∧
    (runEffects ctx Screen.home (HomeScreen.onSnapshotNext docs) w).cartItems.map
      (fun l => l.price) = w.cartItems.map (fun l => l.price) ∧
    (runEffects ctx Screen.home (HomeScreen.fetchMenuItems source) w).cartItems =
      w.cartItems := by
  refine ⟨rfl, rfl, rfl, rfl, rfl, rfl, rfl, ?_⟩
  apply runEffects_cartItems_of_no_mutation
  intro e he
  cases source <;>
    simp only [HomeScreen.fetchMenuItems, HomeScreen.fetchMenuItemsStart,
      HomeScreen.fetchMenuItemsResume, List.cons_append, List.nil_append, List.mem_cons,
      List.mem_singleton, List.not_mem_nil, or_false] at he
  · rcases he with h | h | h <;> subst h <;> rfl
  · rcases he with h | h | h | h <;> subst h <;> rfl

/-! ## The catalog mirror -/

theorem deliver_menuItems (ctx : CartOps) (w : App) (d : HomeScreen.Delivery) :
    (HomeScreen.deliver ctx w d).menuItems = d.docs.map HomeScreen.itemOfDoc := by
  cases d <;> rfl

theorem deliverAll_append (ctx : CartOps) (w : App) (ds : List HomeScreen.Delivery)
    (d : HomeScreen.Delivery) :
    HomeScreen.deliverAll ctx w (ds ++ [d]) =
      HomeScreen.deliver ctx (HomeScreen.deliverAll ctx w ds) d := by
  simp [HomeScreen.deliverAll, List.foldl_append]

/-- C11. After every non-empty sequence of successful catalog deliveries (snapshots and
resolved `fetchMenuItems` results in arrival order), `menuItems` is the list of the items
of the last delivery, one per document in document order, whatever the earlier deliveries
and the `menuItems` before them were; a whole `fetchMenuItems` run that resolves gives the
same list. -/
theorem last_delivery_wins (ctx : CartOps) (w : App) (deliveries : List HomeScreen.Delivery)
    (hne : deliveries ≠ []) :
    (HomeScreen.deliverAll ctx w deliveries).menuItems =
      (deliveries.getLast hne).docs.map HomeScreen.itemOfDoc ∧
    (HomeScreen.deliverAll ctx w deliveries).menuItems.length =
      (deliveries.getLast hne).docs.length ∧
    (∀ (w2 : App) (earlier : List HomeScreen.Delivery),
      (HomeScreen.deliverAll ctx w2 (earlier ++ [deliveries.getLast hne])).menuItems =
        (HomeScreen.deliverAll ctx w deliveries).menuItems) ∧
    (∀ docs : List HomeScreen.Doc,
      (runEffects ctx Screen.home (HomeScreen.fetchMenuItems (Settled.resolved docs))
        w).menuItems = docs.map HomeScreen.itemOfDoc) := by
  have hmain : (HomeScreen.deliverAll ctx w deliveries).menuItems =
      (deliveries.getLast hne).docs.map HomeScreen.itemOfDoc := by
    conv_lhs => rw [← List.dropLast_append_getLast hne]
    rw [deliverAll_append, deliver_menuItems]
  refine ⟨hmain, ?_, ?_, fun _ => rfl⟩
  · rw [hmain, List.length_map]
  · intro w2 earlier
    rw [deliverAll_append, deliver_menuItems, hmain]

/-- Witness for C11: a fetch result followed by a snapshot; the snapshot wins. -/
theorem last_delivery_wins_witness :
    (HomeScreen.deliverAll CartContext.useCart App.initial
      [HomeScreen.Delivery.fetched [docWithOwnId],
       HomeScreen.Delivery.snapshot [docWithSameOwnId]]).menuItems =
      [HomeScreen.itemOfDoc docWithSameOwnId] :=
  (last_delivery_wins CartContext.useCart App.initial
    [HomeScreen.Delivery.fetched [docWithOwnId],
     HomeScreen.Delivery.snapshot [docWithSameOwnId]] (by simp)).1

/-- C12. When the catalog source fails, the error callback of `onSnapshot` and the `catch`
branch of `fetchMenuItems` log the error, show an alert and set `loading` to `false`; they
end normally and change nothing else, so `menuItems` keeps its last value, the empty list
if nothing was ever delivered. -/
theorem catalog_failure_keeps_menu (ctx : CartOps) (w : App) (error : String) :
    HomeScreen.onSnapshotError =
      [Effect.call (Call.consoleError "Error fetching menu items:"),
       Effect.alert "Error" (text "Failed to fetch menu items. Please try again.") [],
       Effect.call (Call.setLoading false)] ∧
    HomeScreen.fetchMenuItems (Settled.rejected error) =
      [Effect.call (Call.setLoading true),
       Effect.call (Call.consoleError "Error fetching menu items:"),
       Effect.alert "Error" (text "Failed to fetch menu items. Please try again.") [],
       Effect.call (Call.setLoading false)] ∧
    runEffects ctx Screen.home HomeScreen.onSnapshotError w = { w with homeLoading := false } ∧
    runEffects ctx Screen.home (HomeScreen.fetchMenuItems (Settled.rejected error)) w =
      { w with homeLoading := false } ∧
    (runEffects ctx Screen.home HomeScreen.onSnapshotError w).menuItems = w.menuItems ∧
    (runEffects ctx Screen.home (HomeScreen.fetchMenuItems (Settled.rejected error))
      w).menuItems = w.menuItems ∧
    (runEffects ctx Screen.home HomeScreen.onSnapshotError App.initial).menuItems = [] ∧
    (runEffects ctx Screen.home (HomeScreen.fetchMenuItems (Settled.rejected error))
      App.initial).menuItems = [] :=
  ⟨rfl, rfl, rfl, rfl, rfl, rfl, rfl, rfl⟩

theorem getProp_setProp_self (o : JsObj) (k : String) (v : JsVal) :
    getProp (setProp o k v) k = v := by
  induction o with
  | nil => simp [setProp, getProp, List.lookup]
  | cons kv rest ih =>
    obtain ⟨k0, v0⟩ := kv
    by_cases h : k0 = k
    · subst h
      simp [setProp, getProp, List.lookup]
    · have hne : (k == k0) = false := by
        simp only [beq_eq_false_iff_ne, ne_eq]
        exact fun hk => h hk.symm
      simp only [setProp, h, if_false, getProp, List.lookup, hne] at ih ⊢
      exact ih

theorem getProp_setProp_of_ne (o : JsObj) (k k2 : String) (v : JsVal) (h : k ≠ k2) :
    getProp (setProp o k v) k2 = getProp o k2 := by
  induction o with
  | nil =>
    have hne : (k2 == k) = false := by
      simp only [beq_eq_false_iff_ne, ne_eq]
      exact fun hk => h hk.symm
    simp [setProp, getProp, List.lookup, hne]
  | cons kv rest ih =>
    obtain ⟨k0, v0⟩ := kv
    by_cases h0 : k0 = k
    · subst h0
      have hne : (k2 == k0) = false := by
        simp only [beq_eq_false_iff_ne, ne_eq]
        exact fun hk => h hk.symm
      simp [setProp, getProp, List.lookup, hne]
    · by_cases h2 : k2 = k0
      · subst h2
        simp [setProp, h0, getProp, List.lookup]
      · have hne : (k2 == k0) = false := by
          simp only [beq_eq_false_iff_ne, ne_eq]
          exact h2
        simp only [setProp, h0, if_false, getProp, List.lookup, hne] at ih ⊢
        exact ih

theorem spread_cons (base : JsObj) (kv : String × JsVal) (rest : JsObj) :
    spread base (kv :: rest) = spread (setProp base kv.1 kv.2) rest := rfl

theorem spread_append (base pre post : JsObj) :
    spread base (pre ++ post) = spread (spread base pre) post := by
  simp [spread, List.foldl_append]

theorem getProp_spread_of_absent (base data : JsObj) (k : String)
    (h : ∀ kv ∈ data, kv.1 ≠ k) : getProp (spread base data) k = getProp base k := by
  induction data generalizing base with
  | nil => rfl
  | cons kv rest ih =>
    rw [spread_cons, ih _ (fun x hx => h x (List.mem_cons_of_mem _ hx)),
      getProp_setProp_of_ne _ _ _ _ (h kv (List.mem_cons_self _ _))]

theorem itemOfDoc_id_of_absent (doc : HomeScreen.Doc) (h : ∀ kv ∈ doc.data, kv.1 ≠ "id") :
    getProp (HomeScreen.itemOfDoc doc) "id" = JsVal.str doc.id := by
  unfold HomeScreen.itemOfDoc
  rw [getProp_spread_of_absent _ _ _ h]
  simp [getProp, List.lookup]

/-- C13, as the claim states it, fails: the spread of `doc.data()` comes after `id: doc.id`,
so a field named `id` in the data replaces the identifier.  `docWithOwnId` has identifier
`d1` and is mirrored with id `x`; two documents with distinct identifiers are mirrored
with the same id. -/
theorem own_id_field_overrides_doc_id :
    docWithOwnId.id = "d1" ∧
    getProp (HomeScreen.itemOfDoc docWithOwnId) "id" = JsVal.str "x" ∧
    ([docWithOwnId, docWithSameOwnId].map (fun d => d.id)).Nodup ∧
    ¬ (([docWithOwnId, docWithSameOwnId].map HomeScreen.itemOfDoc).map
        (fun item => getProp item "id")).Nodup := by
  refine ⟨rfl, ?_, ?_, ?_⟩ <;> decide

/-- C13, amended. For every delivered document whose data has no field named `id` (as the
records written by `handleAddItem`), the id of the mirrored item is `doc.id`, whatever the
other fields are; when the data has a field named `id`, its value is the id of the
mirrored item.  Hence when the identifiers of the delivered documents are pairwise
distinct and no data has a field named `id`, the ids in `menuItems` are pairwise
distinct. -/
theorem mirrored_id_is_doc_id (ctx : CartOps) (w : App) (doc : HomeScreen.Doc)
    (docs : List HomeScreen.Doc) :
    ((∀ kv ∈ doc.data, kv.1 ≠ "id") →
      getProp (HomeScreen.itemOfDoc doc) "id" = JsVal.str doc.id) ∧
    (∀ (pre post : JsObj) (v : JsVal), doc.data = pre ++ ("id", v) :: post →
      (∀ kv ∈ post, kv.1 ≠ "id") → getProp (HomeScreen.itemOfDoc doc) "id" = v) ∧
    ((∀ d ∈ docs, ∀ kv ∈ d.data, kv.1 ≠ "id") → (docs.map (fun d => d.id)).Nodup →
      ((runEffects ctx Screen.home (HomeScreen.onSnapshotNext docs) w).menuItems.map
        (fun item => getProp item "id")).Nodup ∧
      ((runEffects ctx Screen.home (HomeScreen.fetchMenuItems (Settled.resolved docs))
        w).menuItems.map (fun item => getProp item "id")).Nodup) := by
  refine ⟨itemOfDoc_id_of_absent doc, ?_, ?_⟩
  · intro pre post v hdata hpost
    unfold HomeScreen.itemOfDoc
    rw [hdata, spread_append, spread_cons, getProp_spread_of_absent _ _ _ hpost,
      getProp_setProp_self]
  · intro habsent hnodup
    have hids : (docs.map HomeScreen.itemOfDoc).map (fun item => getProp item "id") =
        (docs.map (fun d => d.id)).map JsVal.str := by
      rw [List.map_map, List.map_map]
      apply List.map_congr_left
      intro d hd
      exact itemOfDoc_id_of_absent d (habsent d hd)
    have hres : ((docs.map HomeScreen.itemOfDoc).map (fun item => getProp item "id")).Nodup := by
      rw [hids]
      exact hnodup.map (fun a b hab => by injection hab)
    exact ⟨hres, hres⟩

/-- Witness for C13, amended, at `sampleDoc` and `sampleDoc2`. -/
theorem mirrored_id_is_doc_id_witness :
    (∀ kv ∈ sampleDoc.data, kv.1 ≠ "id") ∧
    getProp (HomeScreen.itemOfDoc sampleDoc) "id" = JsVal.str "m1" ∧
    getProp (HomeScreen.itemOfDoc docWithOwnId) "id" = JsVal.str "x" ∧
    ((runEffects CartContext.useCart Screen.home
      (HomeScreen.onSnapshotNext [sampleDoc, sampleDoc2]) App.initial).menuItems.map
        (fun item => getProp item "id")).Nodup :=
  ⟨by decide,
   (mirrored_id_is_doc_id CartContext.useCart App.initial sampleDoc []).1 (by decide),
   (mirrored_id_is_doc_id CartContext.useCart App.initial docWithOwnId []).2.1
     [("name", JsVal.str "Margherita")] [] (JsVal.str "x") rfl (by simp),
   ((mirrored_id_is_doc_id CartContext.useCart App.initial sampleDoc
     [sampleDoc, sampleDoc2]).2.2 (by decide) (by decide)).1⟩

/-! ## Order totals and customer details -/

/-- C15. With the cart context of the spec, the record `handlePlaceOrder` submits takes its
totals from the lines it submits: `items` is the cart read at the submission, `totalItems`
is the sum of `quantity` over `items` and `totalAmount` the sum of price times quantity
over `items`, both computed by the call made while the record is built. -/
theorem order_totals_from_lines (cartItems : List CartLine) (customerInfo : CustomerInfo)
    (sink : Settled String) :
    (OrderSummaryScreen.orderData CartContext.useCart cartItems customerInfo).items =
      cartItems ∧
    (OrderSummaryScreen.orderData CartContext.useCart cartItems customerInfo).totalItems =
      ((OrderSummaryScreen.orderData CartContext.useCart cartItems customerInfo).items.map
        (fun l => l.quantity)).sum ∧
    (OrderSummaryScreen.orderData CartContext.useCart cartItems customerInfo).totalAmount =
      ((OrderSummaryScreen.orderData CartContext.useCart cartItems customerInfo).items.map
        (fun l => CartContext.unitPrice l * (l.quantity : Rat))).sum ∧
    (∀ (coll : String) (d : OrderData),
      Effect.call (Call.addDoc coll d) ∈
        OrderSummaryScreen.handlePlaceOrder CartContext.useCart cartItems customerInfo sink →
      d.items = cartItems ∧
      d.totalItems = (d.items.map (fun l => l.quantity)).sum ∧
      d.totalAmount =
        (d.items.map (fun l => CartContext.unitPrice l * (l.quantity : Rat))).sum) ∧
    (∀ (l : CartLine) (r : Rat), l.price = JsVal.num r → CartContext.unitPrice l = r) := by
  refine ⟨rfl, rfl, rfl, ?_, ?_⟩
  swap
  · intro l r hl
    simp [CartContext.unitPrice, hl]
  intro coll d hmem
  cases hv : (isBlank customerInfo.name || isBlank customerInfo.phone ||
      isBlank customerInfo.address)
  · by_cases hcart : cartItems = []
    · subst hcart
      simp [OrderSummaryScreen.handlePlaceOrder,
        handlePlaceOrderStart_empty CartContext.useCart customerInfo hv] at hmem
    · rw [handlePlaceOrder_submit CartContext.useCart cartItems customerInfo sink hv hcart]
        at hmem
      have hd : d = OrderSummaryScreen.orderData CartContext.useCart cartItems customerInfo := by
        cases sink <;> simp [OrderSummaryScreen.handlePlaceOrderResume] at hmem <;>
          exact hmem.2
      subst hd
      exact ⟨rfl, rfl, rfl⟩
  · simp [OrderSummaryScreen.handlePlaceOrder,
      handlePlaceOrderStart_missing CartContext.useCart cartItems customerInfo hv] at hmem

/-- Witness for C15: the scenario cart of the spec gives 3 items and 17.50. -/
theorem order_totals_from_lines_witness :
    Effect.call (Call.addDoc "orders"
        (OrderSummaryScreen.orderData CartContext.useCart scenarioCart sampleCustomer)) ∈
      OrderSummaryScreen.handlePlaceOrder CartContext.useCart scenarioCart sampleCustomer
        (Settled.resolved "o1") ∧
    (OrderSummaryScreen.orderData CartContext.useCart scenarioCart sampleCustomer).totalItems
      = 3 ∧
    (OrderSummaryScreen.orderData CartContext.useCart scenarioCart sampleCustomer).totalAmount
      = 35 / 2 ∧
    (OrderSummaryScreen.orderData CartContext.useCart scenarioCart sampleCustomer).totalItems =
      ((OrderSummaryScreen.orderData CartContext.useCart scenarioCart sampleCustomer).items.map
        (fun l => l.quantity)).sum :=
  have hmem : Effect.call (Call.addDoc "orders"
        (OrderSummaryScreen.orderData CartContext.useCart scenarioCart sampleCustomer)) ∈
      OrderSummaryScreen.handlePlaceOrder CartContext.useCart scenarioCart sampleCustomer
        (Settled.resolved "o1") := by
    rw [handlePlaceOrder_submit CartContext.useCart scenarioCart sampleCustomer _ (by decide)
      (by simp [scenarioCart])]
    simp
  ⟨hmem, by decide,
   by
    simp only [OrderSummaryScreen.orderData, CartContext.useCart, CartContext.getTotalPrice,
      scenarioCart, CartContext.unitPrice, List.map_cons, List.map_nil, List.sum_cons,
      List.sum_nil]
    norm_num,
   ((order_totals_from_lines scenarioCart sampleCustomer (Settled.resolved "o1")).2.2.2.1
      "orders" _ hmem).2.1⟩

theorem trimChars_eq_nil_iff (cs : List Char) :
    trimChars cs = [] ↔ ∀ c ∈ cs, isJsWhitespace c = true := by
  unfold trimChars
  rw [List.reverse_eq_nil_iff, List.dropWhile_eq_nil_iff]
  constructor
  · intro h
    have hnil : cs.dropWhile isJsWhitespace = [] := by
      by_contra hne
      have hhead := List.head_dropWhile_not isJsWhitespace cs hne
      have hmem : (cs.dropWhile isJsWhitespace).head hne ∈
          (cs.dropWhile isJsWhitespace).reverse :=
        List.mem_reverse.mpr (List.head_mem hne)
      rw [h _ hmem] at hhead
      exact absurd hhead (by simp)
    exact List.dropWhile_eq_nil_iff.mp hnil
  · intro h
    rw [List.dropWhile_eq_nil_iff.mpr h]
    intro x hx
    cases hx

theorem isBlank_iff (s : String) :
    isBlank s = true ↔ ∀ c ∈ s.data, isJsWhitespace c = true := by
  unfold isBlank
  rw [List.isEmpty_iff, trimChars_eq_nil_iff]

theorem isBlank_iff_jsTrim (s : String) : isBlank s = true ↔ jsTrim s = "" := by
  unfold isBlank jsTrim
  rw [List.isEmpty_iff]
  constructor
  · intro h
    rw [h]
  · intro h
    have := congrArg String.data h
    simpa using this

/-- C17. `handlePlaceOrder` calls `addDoc` only if name, phone and address are each
non-empty after trimming.  If one of them is empty or holds only white space, then for
every cart, empty or not, the handler shows `Missing Information` and returns: no `addDoc`,
no `setLoading`, no cart call, no alert button; so the check comes before the empty-cart
check.  The `customerInfo` of a submitted record is the entered value, untrimmed. -/
theorem missing_details_block_order (ctx : CartOps) (cartItems : List CartLine)
    (customerInfo : CustomerInfo) (sink : Settled String) :
    ((isBlank customerInfo.name || isBlank customerInfo.phone ||
        isBlank customerInfo.address) = true →
      OrderSummaryScreen.handlePlaceOrder ctx cartItems customerInfo sink =
        [Effect.alert "Missing Information" (text "Please fill in all customer details.") []] ∧
      OrderSummaryScreen.handlePlaceOrder ctx [] customerInfo sink =
        [Effect.alert "Missing Information" (text "Please fill in all customer details.") []] ∧
      (∀ e ∈ OrderSummaryScreen.handlePlaceOrder ctx cartItems customerInfo sink,
        e.isAddDoc = false ∧ e.isSetLoading = false ∧ e.isCartMutation = false)) ∧
    ((∃ e ∈ OrderSummaryScreen.handlePlaceOrder ctx cartItems customerInfo sink,
        e.isAddDoc = true) →
      jsTrim customerInfo.name ≠ "" ∧ jsTrim customerInfo.phone ≠ "" ∧
      jsTrim customerInfo.address ≠ "") ∧
    (∀ (coll : String) (d : OrderData),
      Effect.call (Call.addDoc coll d) ∈
        OrderSummaryScreen.handlePlaceOrder ctx cartItems customerInfo sink →
      d.customerInfo = customerInfo) ∧
    ((isBlank customerInfo.name || isBlank customerInfo.phone ||
        isBlank customerInfo.address) = true ↔
      (jsTrim customerInfo.name = "" ∨ jsTrim customerInfo.phone = "" ∨
        jsTrim customerInfo.address = "")) := by
  have hmiss : ∀ cart : List CartLine,
      (isBlank customerInfo.name || isBlank customerInfo.phone ||
        isBlank customerInfo.address) = true →
      OrderSummaryScreen.handlePlaceOrder ctx cart customerInfo sink =
        [Effect.alert "Missing Information" (text "Please fill in all customer details.") []] := by
    intro cart hv
    simp only [OrderSummaryScreen.handlePlaceOrder,
      handlePlaceOrderStart_missing ctx cart customerInfo hv]
  have hiff : (isBlank customerInfo.name || isBlank customerInfo.phone ||
        isBlank customerInfo.address) = true ↔
      (jsTrim customerInfo.name = "" ∨ jsTrim customerInfo.phone = "" ∨
        jsTrim customerInfo.address = "") := by
    rw [Bool.or_eq_true, Bool.or_eq_true, isBlank_iff_jsTrim, isBlank_iff_jsTrim,
      isBlank_iff_jsTrim, or_assoc]
  refine ⟨?_, ?_, ?_, hiff⟩
  · intro hv
    refine ⟨hmiss cartItems hv, hmiss [] hv, ?_⟩
    intro e he
    rw [hmiss cartItems hv, List.mem_singleton] at he
    subst he
    exact ⟨rfl, rfl, rfl⟩
  · rintro ⟨e, he, hadd⟩
    cases hv : (isBlank customerInfo.name || isBlank customerInfo.phone ||
        isBlank customerInfo.address)
    · have hnot := fun h => Bool.false_ne_true (hv ▸ hiff.mpr h)
      exact ⟨fun h => hnot (Or.inl h), fun h => hnot (Or.inr (Or.inl h)),
        fun h => hnot (Or.inr (Or.inr h))⟩
    · rw [hmiss cartItems hv, List.mem_singleton] at he
      subst he
      exact absurd hadd (by simp [Effect.isAddDoc])
  · intro coll d hmem
    cases hv : (isBlank customerInfo.name || isBlank customerInfo.phone ||
        isBlank customerInfo.address)
    · by_cases hcart : cartItems = []
      · subst hcart
        simp [OrderSummaryScreen.handlePlaceOrder,
          handlePlaceOrderStart_empty ctx customerInfo hv] at hmem
      · rw [handlePlaceOrder_submit ctx cartItems customerInfo sink hv hcart] at hmem
        have hd : d = OrderSummaryScreen.orderData ctx cartItems customerInfo := by
          cases sink <;> simp [OrderSummaryScreen.handlePlaceOrderResume] at hmem <;>
            exact hmem.2
        subst hd
        rfl
    · rw [hmiss cartItems hv] at hmem
      simp at hmem

/-- Witness for C17: a blank phone blocks the order of `[sampleLine]` and of the empty
cart; the padded name of `paddedCustomer` is submitted as entered. -/
theorem missing_details_block_order_witness :
    OrderSummaryScreen.handlePlaceOrder CartContext.useCart [sampleLine]
        ⟨"Ann", "  ", "1 Main St"⟩ (Settled.resolved "o1") =
      [Effect.alert "Missing Information" (text "Please fill in all customer details.") []] ∧
    (OrderSummaryScreen.orderData CartContext.useCart [sampleLine] paddedCustomer).customerInfo.name
      = " Ann " ∧
    jsTrim paddedCustomer.name = "Ann" :=
  ⟨((missing_details_block_order CartContext.useCart [sampleLine] ⟨"Ann", "  ", "1 Main St"⟩
      (Settled.resolved "o1")).1 (by decide)).1,
   congrArg CustomerInfo.name
     ((missing_details_block_order CartContext.useCart [sampleLine] paddedCustomer
       (Settled.resolved "o1")).2.2.1 "orders"
       (OrderSummaryScreen.orderData CartContext.useCart [sampleLine] paddedCustomer)
       (by
        rw [handlePlaceOrder_submit CartContext.useCart [sampleLine] paddedCustomer _
          (by decide) (by simp)]
        simp)),
   by decide⟩

/-! ## One line per item -/

theorem any_id_iff (id : JsVal) (cart : List CartLine) :
    cart.any (fun l => decide (l.id = id)) = true ↔ id ∈ cart.map (fun l => l.id) := by
  simp only [List.any_eq_true, decide_eq_true_eq, List.mem_map]

theorem addToCart_present (item : JsObj) (cart : List CartLine)
    (hav : getProp item "available" = JsVal.bool true)
    (hin : getProp item "id" ∈ cart.map (fun l => l.id)) :
    CartContext.addToCart item cart =
      cart.map (fun l =>
        if l.id = getProp item "id" then { l with quantity := l.quantity + 1 } else l) := by
  have hany := (any_id_iff (getProp item "id") cart).mpr hin
  simp only [CartContext.addToCart, hav, if_true, hany]

theorem addToCart_absent (item : JsObj) (cart : List CartLine)
    (hav : getProp item "available" = JsVal.bool true)
    (hnot : getProp item "id" ∉ cart.map (fun l => l.id)) :
    CartContext.addToCart item cart =
      cart ++ [{ id := getProp item "id", name := getProp item "name",
                 description := getProp item "description", price := getProp item "price",
                 imageUrl := getProp item "imageUrl", quantity := 1 }] := by
  have hany : cart.any (fun l => decide (l.id = getProp item "id")) = false := by
    cases h : cart.any (fun l => decide (l.id = getProp item "id"))
    · rfl
    · exact absurd ((any_id_iff _ cart).mp h) hnot
  simp [CartContext.addToCart, hav, hany]

theorem addToCart_unavailable (item : JsObj) (cart : List CartLine)
    (hav : getProp item "available" ≠ JsVal.bool true) :
    CartContext.addToCart item cart = cart := by
  simp only [CartContext.addToCart, hav, if_false]

theorem bump_ids (id : JsVal) (cart : List CartLine) :
    (cart.map (fun l =>
      if l.id = id then { l with quantity := l.quantity + 1 } else l)).map (fun l => l.id) =
    cart.map (fun l => l.id) := by
  rw [List.map_map]
  apply List.map_congr_left
  intro l _
  simp only [Function.comp]
  split <;> rfl

theorem addToCart_ids (item : JsObj) (cart : List CartLine) :
    (CartContext.addToCart item cart).map (fun l => l.id) = cart.map (fun l => l.id) ∨
    (getProp item "available" = JsVal.bool true ∧
      getProp item "id" ∉ cart.map (fun l => l.id) ∧
      (CartContext.addToCart item cart).map (fun l => l.id) =
        cart.map (fun l => l.id) ++ [getProp item "id"]) := by
  by_cases hav : getProp item "available" = JsVal.bool true
  · by_cases hin : getProp item "id" ∈ cart.map (fun l => l.id)
    · left
      rw [addToCart_present item cart hav hin, bump_ids]
    · right
      refine ⟨hav, hin, ?_⟩
      rw [addToCart_absent item cart hav hin]
      simp
  · left
    rw [addToCart_unavailable item cart hav]

theorem addToCart_nodup (item : JsObj) (cart : List CartLine)
    (h : (cart.map (fun l => l.id)).Nodup) :
    ((CartContext.addToCart item cart).map (fun l => l.id)).Nodup := by
  rcases addToCart_ids item cart with h1 | ⟨_, hnot, h2⟩
  · rw [h1]; exact h
  · rw [h2]
    exact List.Nodup.append h (List.nodup_singleton _)
      (by
        intro x hx hx2
        rw [List.mem_singleton] at hx2
        subst hx2
        exact hnot hx)

theorem addToCart_has_id (item : JsObj) (cart : List CartLine)
    (hav : getProp item "available" = JsVal.bool true) :
    getProp item "id" ∈ (CartContext.addToCart item cart).map (fun l => l.id) := by
  by_cases hin : getProp item "id" ∈ cart.map (fun l => l.id)
  · rw [addToCart_present item cart hav hin, bump_ids]
    exact hin
  · rw [addToCart_absent item cart hav hin]
    simp

theorem addToCart_keeps_ids (item : JsObj) (cart : List CartLine) (id : JsVal)
    (h : id ∈ cart.map (fun l => l.id)) :
    id ∈ (CartContext.addToCart item cart).map (fun l => l.id) := by
  rcases addToCart_ids item cart with h1 | ⟨_, _, h2⟩
  · rw [h1]; exact h
  · rw [h2]
    exact List.mem_append_left _ h

theorem session_add_cartItems (w : App) (item : JsObj) :
    (Session.step CartContext.useCart w (Session.Action.add item)).cartItems =
      CartContext.addToCart item w.cartItems := rfl

theorem session_run_cons (ctx : CartOps) (w : App) (a : Session.Action)
    (rest : List Session.Action) :
    Session.run ctx w (a :: rest) = Session.run ctx (Session.step ctx w a) rest := rfl

theorem adds_nodup (items : List JsObj) (w : App)
    (h : (w.cartItems.map (fun l => l.id)).Nodup) :
    ((Session.run CartContext.useCart w (items.map Session.Action.add)).cartItems.map
      (fun l => l.id)).Nodup := by
  induction items generalizing w with
  | nil => exact h
  | cons item rest ih =>
    rw [List.map_cons, session_run_cons]
    apply ih
    rw [session_add_cartItems]
    exact addToCart_nodup item w.cartItems h

theorem adds_keep_ids (items : List JsObj) (w : App) (id : JsVal)
    (h : id ∈ w.cartItems.map (fun l => l.id)) :
    id ∈ (Session.run CartContext.useCart w (items.map Session.Action.add)).cartItems.map
      (fun l => l.id) := by
  induction items generalizing w with
  | nil => exact h
  | cons item rest ih =>
    rw [List.map_cons, session_run_cons]
    apply ih
    rw [session_add_cartItems]
    exact addToCart_keeps_ids item w.cartItems id h

theorem adds_have_ids (items : List JsObj) (w : App) (item : JsObj) (hmem : item ∈ items)
    (hav : getProp item "available" = JsVal.bool true) :
    getProp item "id" ∈
      (Session.run CartContext.useCart w (items.map Session.Action.add)).cartItems.map
        (fun l => l.id) := by
  induction items generalizing w with
  | nil => cases hmem
  | cons first rest ih =>
    rw [List.map_cons, session_run_cons]
    rcases List.mem_cons.mp hmem with h | h
    · subst h
      apply adds_keep_ids
      rw [session_add_cartItems]
      exact addToCart_has_id item w.cartItems hav
    · exact ih _ h

theorem adds_ids_from_items (items : List JsObj) (w : App) (id : JsVal)
    (h : id ∈ (Session.run CartContext.useCart w (items.map Session.Action.add)).cartItems.map
      (fun l => l.id)) :
    id ∈ w.cartItems.map (fun l => l.id) ∨
    id ∈ items.map (fun item => getProp item "id") := by
  induction items generalizing w with
  | nil => exact Or.inl h
  | cons first rest ih =>
    rw [List.map_cons, session_run_cons] at h
    rcases ih _ h with h1 | h1
    · rw [session_add_cartItems] at h1
      rcases addToCart_ids first w.cartItems with h2 | ⟨_, _, h2⟩
      · rw [h2] at h1
        exact Or.inl h1
      · rw [h2] at h1
        rcases List.mem_append.mp h1 with h3 | h3
        · exact Or.inl h3
        · rw [List.mem_singleton] at h3
          exact Or.inr (by rw [h3]; exact List.mem_cons_self _ _)
    · exact Or.inr (List.mem_cons_of_mem _ h1)

/-- C16. With the cart context of the spec, after every finite sequence of
`handleAddToCart` presses starting from an empty cart, no two lines of the cart have the
same id; when the items added are available (the precondition of `addItem`), the ids of
the lines are exactly the ids of the items added, so the cart holds exactly one line per
distinct item id.  Adding an available item whose id is in the cart adds no line and
raises the quantity of the line with that id by 1; adding one with a new id appends one
line with quantity 1 at the end. -/
theorem add_keeps_one_line_per_id (w0 : App) (items : List JsObj)
    (hempty : w0.cartItems = []) :
    ((Session.run CartContext.useCart w0 (items.map Session.Action.add)).cartItems.map
      (fun l => l.id)).Nodup ∧
    ((∀ item ∈ items, getProp item "available" = JsVal.bool true) → ∀ id : JsVal,
      id ∈ (Session.run CartContext.useCart w0 (items.map Session.Action.add)).cartItems.map
          (fun l => l.id) ↔
        id ∈ items.map (fun item => getProp item "id")) ∧
    (∀ (w : App) (item : JsObj), getProp item "available" = JsVal.bool true →
      getProp item "id" ∈ w.cartItems.map (fun l => l.id) →
      (Session.step CartContext.useCart w (Session.Action.add item)).cartItems =
        w.cartItems.map (fun l =>
          if l.id = getProp item "id" then { l with quantity := l.quantity + 1 } else l) ∧
      (Session.step CartContext.useCart w (Session.Action.add item)).cartItems.length =
        w.cartItems.length) ∧
    (∀ (w : App) (item : JsObj), getProp item "available" = JsVal.bool true →
      getProp item "id" ∉ w.cartItems.map (fun l => l.id) →
      (Session.step CartContext.useCart w (Session.Action.add item)).cartItems =
        w.cartItems ++ [{ id := getProp item "id", name := getProp item "name",
                          description := getProp item "description",
                          price := getProp item "price",
                          imageUrl := getProp item "imageUrl", quantity := 1 }]) := by
  refine ⟨?_, ?_, ?_, ?_⟩
  · apply adds_nodup
    rw [hempty]
    exact List.nodup_nil
  · intro havail id
    constructor
    · intro h
      rcases adds_ids_from_items items w0 id h with h1 | h1
      · rw [hempty] at h1
        cases h1
      · exact h1
    · intro h
      obtain ⟨item, hmem, hid⟩ := List.mem_map.mp h
      rw [← hid]
      exact adds_have_ids items w0 item hmem (havail item hmem)
  · intro w item hav hin
    rw [session_add_cartItems, addToCart_present item w.cartItems hav hin]
    exact ⟨rfl, List.length_map _ _⟩
  · intro w item hav hnot
    rw [session_add_cartItems, addToCart_absent item w.cartItems hav hnot]

/-- Witness for C16: `sampleItem` added twice from the empty cart gives one line with
quantity 2, and its id is the only id in the cart. -/
theorem add_keeps_one_line_per_id_witness :
    App.initial.cartItems = [] ∧
    (∀ item ∈ [sampleItem, sampleItem], getProp item "available" = JsVal.bool true) ∧
    (Session.run CartContext.useCart App.initial
      ([sampleItem, sampleItem].map Session.Action.add)).cartItems = [sampleLine] ∧
    ((Session.run CartContext.useCart App.initial
      ([sampleItem, sampleItem].map Session.Action.add)).cartItems.map
        (fun l => l.id)).Nodup ∧
    JsVal.str "m1" ∈ (Session.run CartContext.useCart App.initial
      ([sampleItem, sampleItem].map Session.Action.add)).cartItems.map (fun l => l.id) :=
  ⟨rfl, by decide, by decide,
   (add_keeps_one_line_per_id App.initial [sampleItem, sampleItem] rfl).1,
   ((add_keeps_one_line_per_id App.initial [sampleItem, sampleItem] rfl).2.1 (by decide)
      (JsVal.str "m1")).mpr (by decide)⟩

/-! ## Adding a menu item -/

theorem leZero_false_iff_gtZero (x : JsNum) (h : x.isNaN = false) :
    x.leZero = false ↔ x.gtZero = true := by
  cases x with
  | nan => simp [JsNum.isNaN] at h
  | posInf => simp [JsNum.leZero, JsNum.gtZero]
  | negInf => simp [JsNum.leZero, JsNum.gtZero]
  | finite r => simp [JsNum.leZero, JsNum.gtZero]

theorem validateForm_true_iff_guards (parseFloat : String → JsNum)
    (formData : AdminAddItemScreen.FormData) :
    (AdminAddItemScreen.validateForm parseFloat formData).1 = true ↔
      isBlank formData.name = false ∧ isBlank formData.description = false ∧
      (formData.price = "" || (parseFloat formData.price).isNaN ||
        (parseFloat formData.price).leZero) = false ∧
      isBlank formData.imageUrl = false := by
  cases h1 : isBlank formData.name <;> cases h2 : isBlank formData.description <;>
    cases h3 : (formData.price = "" || (parseFloat formData.price).isNaN ||
      (parseFloat formData.price).leZero) <;>
    cases h4 : isBlank formData.imageUrl <;>
    simp only [AdminAddItemScreen.validateForm, h1, h2, h3, h4] <;> simp

theorem validateForm_of_true (parseFloat : String → JsNum)
    (formData : AdminAddItemScreen.FormData)
    (h : (AdminAddItemScreen.validateForm parseFloat formData).1 = true) :
    AdminAddItemScreen.validateForm parseFloat formData = (true, []) := by
  obtain ⟨h1, h2, h3, h4⟩ := (validateForm_true_iff_guards parseFloat formData).mp h
  simp only [AdminAddItemScreen.validateForm, h1, h2, h3, h4]
  simp

theorem validateForm_of_false (parseFloat : String → JsNum)
    (formData : AdminAddItemScreen.FormData)
    (h : (AdminAddItemScreen.validateForm parseFloat formData).1 = false) :
    ∃ message, AdminAddItemScreen.validateForm parseFloat formData =
      (false, [AdminAddItemScreen.Effect.alert "Error" (text message) []]) := by
  unfold AdminAddItemScreen.validateForm at h ⊢
  split_ifs at h ⊢
  · exact ⟨_, rfl⟩
  · exact ⟨_, rfl⟩
  · exact ⟨_, rfl⟩
  · exact ⟨_, rfl⟩

theorem handleAddItem_of_valid (parseFloat : String → JsNum) (now : Int)
    (formData : AdminAddItemScreen.FormData) (sink : Settled String)
    (h : (AdminAddItemScreen.validateForm parseFloat formData).1 = true) :
    AdminAddItemScreen.handleAddItem parseFloat now formData sink =
      [AdminAddItemScreen.Effect.call (AdminAddItemScreen.Call.setLoading true),
       AdminAddItemScreen.Effect.call (AdminAddItemScreen.Call.addDoc "menuItems"
         (AdminAddItemScreen.menuItem parseFloat now formData))] ++
      AdminAddItemScreen.handleAddItemResume formData sink := by
  simp [AdminAddItemScreen.handleAddItem, AdminAddItemScreen.handleAddItemStart,
    validateForm_of_true parseFloat formData h]

theorem handleAddItem_of_invalid (parseFloat : String → JsNum) (now : Int)
    (formData : AdminAddItemScreen.FormData) (sink : Settled String)
    (h : (AdminAddItemScreen.validateForm parseFloat formData).1 = false) :
    AdminAddItemScreen.handleAddItem parseFloat now formData sink =
      (AdminAddItemScreen.validateForm parseFloat formData).2 := by
  obtain ⟨message, hm⟩ := validateForm_of_false parseFloat formData h
  simp [AdminAddItemScreen.handleAddItem, AdminAddItemScreen.handleAddItemStart, hm]

theorem isBlank_false_iff_jsTrim (s : String) : isBlank s = false ↔ jsTrim s ≠ "" := by
  rw [Ne, ← isBlank_iff_jsTrim]
  simp

/-- C14. For every form that passes `validateForm`, `handleAddItem` calls `addDoc` exactly
once, on the collection `menuItems`, with a record whose `available` is `true`, whose
`name`, `description` and `imageUrl` are the trimmed form values, each non-empty, whose
`price` is `parseFloat` of the price field and is greater than 0, and whose `category` is
the selected one, or `Other` when none is selected. -/
theorem added_item_record (parseFloat : String → JsNum) (now : Int)
    (formData : AdminAddItemScreen.FormData) (sink : Settled String)
    (hvalid : (AdminAddItemScreen.validateForm parseFloat formData).1 = true) :
    (AdminAddItemScreen.handleAddItem parseFloat now formData sink).filter
        AdminAddItemScreen.Effect.isAddDoc =
      [AdminAddItemScreen.Effect.call (AdminAddItemScreen.Call.addDoc "menuItems"
        { name := jsTrim formData.name
          description := jsTrim formData.description
          price := parseFloat formData.price
          category := if formData.category = "" then "Other" else formData.category
          imageUrl := jsTrim formData.imageUrl
          createdAt := now
          available := true })] ∧
    jsTrim formData.name ≠ "" ∧ jsTrim formData.description ≠ "" ∧
    jsTrim formData.imageUrl ≠ "" ∧
    (parseFloat formData.price).isNaN = false ∧
    (parseFloat formData.price).gtZero = true ∧
    (formData.category = "" →
      (AdminAddItemScreen.menuItem parseFloat now formData).category = "Other") ∧
    (formData.category ≠ "" →
      (AdminAddItemScreen.menuItem parseFloat now formData).category = formData.category) := by
  obtain ⟨hn, hd, hp, hi⟩ := (validateForm_true_iff_guards parseFloat formData).mp hvalid
  simp only [Bool.or_eq_false_iff] at hp
  obtain ⟨⟨_, hnan⟩, hle⟩ := hp
  refine ⟨?_, (isBlank_false_iff_jsTrim _).mp hn, (isBlank_false_iff_jsTrim _).mp hd,
    (isBlank_false_iff_jsTrim _).mp hi, hnan,
    (leZero_false_iff_gtZero _ hnan).mp hle, ?_, ?_⟩
  · rw [handleAddItem_of_valid parseFloat now formData sink hvalid]
    cases sink <;> rfl
  · intro hc
    simp [AdminAddItemScreen.menuItem, hc]
  · intro hc
    simp [AdminAddItemScreen.menuItem, hc]

/-- Witness for C14 at `sampleForm`: the padded name and image URL are written trimmed, the
price is 12.5 and the category is `Other`. -/
theorem added_item_record_witness :
    (AdminAddItemScreen.validateForm AdminAddItemScreen.sampleParseFloat
      AdminAddItemScreen.sampleForm).1 = true ∧
    (AdminAddItemScreen.handleAddItem AdminAddItemScreen.sampleParseFloat 0
        AdminAddItemScreen.sampleForm (Settled.resolved "m9")).filter
        AdminAddItemScreen.Effect.isAddDoc =
      [AdminAddItemScreen.Effect.call (AdminAddItemScreen.Call.addDoc "menuItems"
        { name := jsTrim AdminAddItemScreen.sampleForm.name
          description := jsTrim AdminAddItemScreen.sampleForm.description
          price := AdminAddItemScreen.sampleParseFloat AdminAddItemScreen.sampleForm.price
          category := if AdminAddItemScreen.sampleForm.category = "" then "Other"
            else AdminAddItemScreen.sampleForm.category
          imageUrl := jsTrim AdminAddItemScreen.sampleForm.imageUrl
          createdAt := 0
          available := true })] ∧
    jsTrim AdminAddItemScreen.sampleForm.name = "Margherita" ∧
    (AdminAddItemScreen.menuItem AdminAddItemScreen.sampleParseFloat 0
      AdminAddItemScreen.sampleForm).category = "Other" :=
  have hv : (AdminAddItemScreen.validateForm AdminAddItemScreen.sampleParseFloat
      AdminAddItemScreen.sampleForm).1 = true := by
    rw [validateForm_true_iff_guards]
    refine ⟨by decide, by decide, ?_, by decide⟩
    simp [AdminAddItemScreen.sampleForm, AdminAddItemScreen.sampleParseFloat, JsNum.isNaN,
      JsNum.leZero]
  ⟨hv,
   (added_item_record AdminAddItemScreen.sampleParseFloat 0 AdminAddItemScreen.sampleForm
      (Settled.resolved "m9") hv).1,
   by decide,
   (added_item_record AdminAddItemScreen.sampleParseFloat 0 AdminAddItemScreen.sampleForm
      (Settled.resolved "m9") hv).2.2.2.2.2.2.1 rfl⟩

/-- C18. `validateForm` returns `true` exactly when the trimmed name, description and image
URL are non-empty and the price field is non-empty and `parseFloat` of it is not `NaN` and
is greater than 0; a price that parses to 0 is rejected.  When it returns `false`,
`handleAddItem` only shows the alert of `validateForm`: no `addDoc`, no `setLoading`, and
the state of the screen, `loading` included, is unchanged. -/
theorem validateForm_true_iff (parseFloat : String → JsNum) (now : Int)
    (formData : AdminAddItemScreen.FormData) (sink : Settled String)
    (st : AdminAddItemScreen.State) :
    ((AdminAddItemScreen.validateForm parseFloat formData).1 = true ↔
      jsTrim formData.name ≠ "" ∧ jsTrim formData.description ≠ "" ∧
      jsTrim formData.imageUrl ≠ "" ∧ formData.price ≠ "" ∧
      (parseFloat formData.price).isNaN = false ∧
      (parseFloat formData.price).gtZero = true) ∧
    (parseFloat formData.price = JsNum.finite 0 →
      (AdminAddItemScreen.validateForm parseFloat formData).1 = false) ∧
    ((AdminAddItemScreen.validateForm parseFloat formData).1 = false →
      AdminAddItemScreen.handleAddItem parseFloat now formData sink =
        (AdminAddItemScreen.validateForm parseFloat formData).2 ∧
      (∀ e ∈ AdminAddItemScreen.handleAddItem parseFloat now formData sink,
        e.isAddDoc = false ∧ e.isSetLoading = false) ∧
      AdminAddItemScreen.runEffects
        (AdminAddItemScreen.handleAddItem parseFloat now formData sink) st = st ∧
      (st.loading = false →
        (AdminAddItemScreen.runEffects
          (AdminAddItemScreen.handleAddItem parseFloat now formData sink) st).loading =
          false)) := by
  have hiff : (AdminAddItemScreen.validateForm parseFloat formData).1 = true ↔
      jsTrim formData.name ≠ "" ∧ jsTrim formData.description ≠ "" ∧
      jsTrim formData.imageUrl ≠ "" ∧ formData.price ≠ "" ∧
      (parseFloat formData.price).isNaN = false ∧
      (parseFloat formData.price).gtZero = true := by
    rw [validateForm_true_iff_guards, isBlank_false_iff_jsTrim, isBlank_false_iff_jsTrim,
      isBlank_false_iff_jsTrim]
    simp only [Bool.or_eq_false_iff, decide_eq_false_iff_not]
    constructor
    · rintro ⟨hn, hd, ⟨⟨hp, hnan⟩, hle⟩, hi⟩
      exact ⟨hn, hd, hi, hp, hnan, (leZero_false_iff_gtZero _ hnan).mp hle⟩
    · rintro ⟨hn, hd, hi, hp, hnan, hgt⟩
      exact ⟨hn, hd, ⟨⟨hp, hnan⟩, (leZero_false_iff_gtZero _ hnan).mpr hgt⟩, hi⟩
  refine ⟨hiff, ?_, ?_⟩
  · intro hzero
    cases hv : (AdminAddItemScreen.validateForm parseFloat formData).1
    · rfl
    · have hgt := (hiff.mp hv).2.2.2.2.2
      rw [hzero] at hgt
      simp [JsNum.gtZero] at hgt
  · intro hv
    obtain ⟨message, hm⟩ := validateForm_of_false parseFloat formData hv
    have hrun := handleAddItem_of_invalid parseFloat now formData sink hv
    rw [hm] at hrun
    rw [hm]
    refine ⟨hrun, ?_, ?_, ?_⟩
    · intro e he
      rw [hrun] at he
      simp only [List.mem_singleton] at he
      subst he
      exact ⟨rfl, rfl⟩
    · rw [hrun]; rfl
    · intro hl
      rw [hrun]; exact hl

/-- Witness for C18: `sampleForm` passes; the same form with price `0` is rejected and
`handleAddItem` then leaves the state unchanged. -/
theorem validateForm_true_iff_witness :
    (AdminAddItemScreen.validateForm AdminAddItemScreen.sampleParseFloat
      { AdminAddItemScreen.sampleForm with price := "0" }).1 = false ∧
    AdminAddItemScreen.runEffects
      (AdminAddItemScreen.handleAddItem AdminAddItemScreen.sampleParseFloat 0
        { AdminAddItemScreen.sampleForm with price := "0" } (Settled.resolved "m9"))
      ⟨{ AdminAddItemScreen.sampleForm with price := "0" }, false, none, []⟩ =
      ⟨{ AdminAddItemScreen.sampleForm with price := "0" }, false, none, []⟩ :=
  have hv : (AdminAddItemScreen.validateForm AdminAddItemScreen.sampleParseFloat
      { AdminAddItemScreen.sampleForm with price := "0" }).1 = false :=
    (validateForm_true_iff AdminAddItemScreen.sampleParseFloat 0
      { AdminAddItemScreen.sampleForm with price := "0" } (Settled.resolved "m9")
      ⟨{ AdminAddItemScreen.sampleForm with price := "0" }, false, none, []⟩).2.1
      (by simp [AdminAddItemScreen.sampleParseFloat])
  ⟨hv,
   ((validateForm_true_iff AdminAddItemScreen.sampleParseFloat 0
      { AdminAddItemScreen.sampleForm with price := "0" } (Settled.resolved "m9")
      ⟨{ AdminAddItemScreen.sampleForm with price := "0" }, false, none, []⟩).2.2 hv).2.2.1⟩

end FoodOrdering
